import Mathlib

set_option maxRecDepth 16000

/-!
Verification of the RunbookAI incident-investigation engine: a shallow
embedding in Lean 4 of the ServiceGraph, ContextCompactor,
InvestigationMemory, Scratchpad, approval and Slack-webhook modules,
with theorems settling the specification's claims about them.

Conventions of the embedding:
* JavaScript `Map`/`Set` (insertion-ordered) are modelled as association
  lists `List (String × α)` / `List String` with insertion-order
  preserving `set`/`add` operations.
* Wall-clock time (`Date.now()`, `new Date()`) is passed explicitly as a
  `Nat`/`Int` parameter named `now`.
* JavaScript numbers used for scores are modelled as `Rat` (the scores
  involved are short decimal fractions, where `Rat` and IEEE doubles
  order identically).
* Strings are compared and searched byte-for-byte; `toLowerCase` is
  ASCII lowercasing, matching the ASCII inputs the code handles.
-/

/-- Insertion-ordered map update, as JavaScript `Map.set`: replaces in
place when the key exists, appends otherwise. -/
def jsSet {α : Type} (m : List (String × α)) (k : String) (v : α) :
    List (String × α) :=
  if m.any (fun p => p.1 = k) then
    m.map (fun p => if p.1 = k then (k, v) else p)
  else
    m ++ [(k, v)]

/-- Map lookup, as JavaScript `Map.get` (first match). -/
def jsGet {α : Type} (m : List (String × α)) (k : String) : Option α :=
  (m.find? (fun p => p.1 = k)).map Prod.snd

/-- Lookup with a default value. -/
def jsGetD {α : Type} (m : List (String × α)) (k : String) (d : α) : α :=
  (jsGet m k).getD d

/-- Key-membership test, as JavaScript `Map.has`. -/
def jsHas {α : Type} (m : List (String × α)) (k : String) : Bool :=
  m.any (fun p => p.1 = k)

/-- Key removal, as JavaScript `Map.delete` (order of the rest kept). -/
def jsDelete {α : Type} (m : List (String × α)) (k : String) :
    List (String × α) :=
  m.filter (fun p => p.1 ≠ k)

/-- Insertion-ordered set insert, as JavaScript `Set.add`. -/
def jsAdd (s : List String) (x : String) : List String :=
  if s.contains x then s else s ++ [x]

/-- `sub` occurs as a contiguous substring of `s`, as JavaScript
`String.includes`. -/
def strContainsSub (s sub : String) : Bool :=
  decide (sub.toList <:+: s.toList)

/-- ASCII lowercasing, as JavaScript `toLowerCase` on ASCII input. -/
def jsLower (s : String) : String :=
  String.mk (s.toList.map Char.toLower)

/-- First `n` characters, as JavaScript `slice(0, n)`. -/
def strTake (s : String) (n : Nat) : String :=
  String.mk (s.toList.take n)

/-- Last `n` characters, as JavaScript `slice(-n)`. -/
def strTakeRight (s : String) (n : Nat) : String :=
  String.mk (s.toList.drop (s.toList.length - n))

/-- `String.startsWith`, via the character list. -/
def strStartsWith (s pre : String) : Bool :=
  pre.toList.isPrefixOf s.toList

mutual

/-- Accumulate the current token of a whitespace split (`acc` holds the
token read so far, reversed). -/
def splitWsTok : List Char → List Char → List String
  | [], acc => [String.mk acc.reverse]
  | c :: rest, acc =>
    if c.isWhitespace then String.mk acc.reverse :: splitWsGap rest
    else splitWsTok rest (c :: acc)

/-- Skip a maximal whitespace run of a whitespace split. -/
def splitWsGap : List Char → List String
  | [] => [""]
  | c :: rest =>
    if c.isWhitespace then splitWsGap rest
    else splitWsTok rest [c]

end

/-- JavaScript `s.split(/\s+/)`: split on maximal whitespace runs,
with a leading/trailing empty piece when the string starts/ends with
whitespace, and `[""]` for the empty string. -/
def jsSplitWs (s : String) : List String :=
  splitWsTok s.toList []

/-- Serialization `JSON.stringify` of a flat string-to-string record,
used by the code only as a haystack for substring probes. -/
def jsonStringify (m : List (String × String)) : String :=
  "\x7b" ++ String.intercalate ","
    (m.map (fun p => "\x22" ++ p.1 ++ "\x22:\x22" ++ p.2 ++ "\x22")) ++ "\x7d"

section ServiceGraphModel

/-! ## ServiceGraph

Embedding of the `ServiceGraph` class (service dependency graph store):
typed nodes and edges, insertion-ordered maps for nodes/edges and the
two adjacency indexes, DFS impact traversals with criticality merging,
and the JSON round-trip (modelled at the data level: the JSON string
codec is the identity on these record shapes, except that `Date` fields
are revived through `addService`, exactly as `fromJSON` does). -/

inductive ServiceType
  | service | database | cache | queue | external | infrastructure
deriving DecidableEq, Repr

inductive ServiceTier
  | critical | high | medium | low
deriving DecidableEq, Repr

inductive Criticality
  | critical | degraded | optional
deriving DecidableEq, Repr

inductive EdgeType
  | sync | async | database | cache | queue | external
deriving DecidableEq, Repr

/-- A service node of the graph (interface `ServiceNode`). `metadata`
is an opaque flat record. Timestamps are `Nat` clock values. -/
structure ServiceNode where
  id : String
  name : String
  type : ServiceType
  team : Option String := none
  owner : Option String := none
  tier : Option ServiceTier := none
  repository : Option String := none
  documentation : Option String := none
  runbooks : Option (List String) := none
  tags : List String := []
  metadata : List (String × String) := []
  createdAt : Nat
  updatedAt : Nat
deriving DecidableEq, Repr

/-- The caller-supplied part of a node: `Omit<ServiceNode, 'createdAt' | 'updatedAt'>`. -/
structure ServiceNodeInput where
  id : String
  name : String
  type : ServiceType
  team : Option String := none
  owner : Option String := none
  tier : Option ServiceTier := none
  repository : Option String := none
  documentation : Option String := none
  runbooks : Option (List String) := none
  tags : List String := []
  metadata : List (String × String) := []
deriving DecidableEq, Repr

/-- A dependency edge (interface `DependencyEdge`). -/
structure DependencyEdge where
  id : String
  source : String
  target : String
  type : EdgeType
  protocol : Option String := none
  criticality : Criticality
  description : Option String := none
  metadata : List (String × String) := []
deriving DecidableEq, Repr

/-- The caller-supplied part of an edge: `Omit<DependencyEdge, 'id'>`. -/
structure DependencyEdgeInput where
  source : String
  target : String
  type : EdgeType
  protocol : Option String := none
  criticality : Criticality
  description : Option String := none
  metadata : List (String × String) := []
deriving DecidableEq, Repr

/-- An impact path produced by the impact traversals (interface
`ImpactPath`). -/
structure ImpactPath where
  source : String
  affected : String
  path : List String
  hops : Nat
  criticality : Criticality
deriving DecidableEq, Repr

/-- The graph state: `nodes`, `edges`, and the `outgoing`/`incoming`
adjacency indexes mapping a service id to a set of edge ids. -/
structure ServiceGraph where
  nodes : List (String × ServiceNode) := []
  edges : List (String × DependencyEdge) := []
  outgoing : List (String × List String) := []
  incoming : List (String × List String) := []
deriving DecidableEq, Repr

namespace ServiceGraph

/-- The empty graph (`new ServiceGraph()`). -/
def empty : ServiceGraph := {}

/-- `addService`: stores the node with both timestamps set to `now`
(the caller-supplied record carries no timestamps; any it did carry are
overwritten by the spread `{...service, createdAt: now, updatedAt: now}`),
and initializes the adjacency entries when absent. -/
def addService (g : ServiceGraph) (s : ServiceNodeInput) (now : Nat) :
    ServiceGraph :=
  let node : ServiceNode :=
    { id := s.id, name := s.name, type := s.type, team := s.team,
      owner := s.owner, tier := s.tier, repository := s.repository,
      documentation := s.documentation, runbooks := s.runbooks,
      tags := s.tags, metadata := s.metadata,
      createdAt := now, updatedAt := now }
  { g with
    nodes := jsSet g.nodes s.id node,
    outgoing := if jsHas g.outgoing s.id then g.outgoing
                else g.outgoing ++ [(s.id, [])],
    incoming := if jsHas g.incoming s.id then g.incoming
                else g.incoming ++ [(s.id, [])] }

/-- `getService`. -/
def getService (g : ServiceGraph) (id : String) : Option ServiceNode :=
  jsGet g.nodes id

/-- `addDependency`: edge id is `source "->" target`; overwrites the
edge under that id and registers it in both adjacency indexes. -/
def addDependency (g : ServiceGraph) (e : DependencyEdgeInput) :
    ServiceGraph :=
  let id := e.source ++ "->" ++ e.target
  let fullEdge : DependencyEdge :=
    { id := id, source := e.source, target := e.target, type := e.type,
      protocol := e.protocol, criticality := e.criticality,
      description := e.description, metadata := e.metadata }
  let edges := jsSet g.edges id fullEdge
  let outgoing₀ := if jsHas g.outgoing e.source then g.outgoing
                   else g.outgoing ++ [(e.source, [])]
  let outgoing := jsSet outgoing₀ e.source (jsAdd (jsGetD outgoing₀ e.source []) id)
  let incoming₀ := if jsHas g.incoming e.target then g.incoming
                   else g.incoming ++ [(e.target, [])]
  let incoming := jsSet incoming₀ e.target (jsAdd (jsGetD incoming₀ e.target []) id)
  { g with edges := edges, outgoing := outgoing, incoming := incoming }

/-- `getDependency`. -/
def getDependency (g : ServiceGraph) (source target : String) :
    Option DependencyEdge :=
  jsGet g.edges (source ++ "->" ++ target)

/-- The numeric order used by `mergeCriticality`:
`{ critical: 0, degraded: 1, optional: 2 }`. -/
def critOrder : Criticality → Nat
  | .critical => 0
  | .degraded => 1
  | .optional => 2

/-- `mergeCriticality`: returns the argument earlier in the order
`critical < degraded < optional` (i.e. the minimum under that order). -/
def mergeCriticality (a b : Criticality) : Criticality :=
  if critOrder a ≤ critOrder b then a else b

/-- Shared traversal state of the impact DFS: the `visited` set and the
accumulated `paths`, both threaded through the whole traversal. -/
structure TraverseSt where
  visited : List String
  paths : List ImpactPath
deriving DecidableEq, Repr

/-- The body of the `for (const edgeId of edgeIds)` loop of
`getUpstreamImpact`'s `traverse`: look the edge up, push an
`ImpactPath`, and recurse (through `recur`) into the edge's source. -/
def upStep (g : ServiceGraph) (serviceId : String)
    (recur : String → List String → Criticality → TraverseSt → TraverseSt)
    (path : List String) (crit : Criticality)
    (st : TraverseSt) (eid : String) : TraverseSt :=
  match jsGet g.edges eid with
  | none => st
  | some edge =>
    let newPath := path ++ [edge.source]
    let newCrit := ServiceGraph.mergeCriticality crit edge.criticality
    recur edge.source newPath newCrit
      { st with paths := st.paths ++
          [{ source := serviceId, affected := edge.source,
             path := newPath, hops := newPath.length,
             criticality := newCrit }] }

/-- The recursive `traverse` closure of `getUpstreamImpact`. `fuel`
stands for `maxDepth + 1 - depth`, so `fuel = 0` is exactly the guard
`depth > maxDepth`. -/
def upTraverse (g : ServiceGraph) (serviceId : String) :
    Nat → String → List String → Criticality → TraverseSt → TraverseSt
  | 0, _, _, _, st => st
  | fuel + 1, current, path, crit, st =>
    if st.visited.contains current then st
    else
      (jsGetD g.incoming current []).foldl
        (upStep g serviceId
          (fun c p cr s => upTraverse g serviceId fuel c p cr s) path crit)
        { st with visited := st.visited ++ [current] }

/-- The body of the edge loop of `getDownstreamImpact`'s `traverse`
(same as the upstream one but pushing and recursing into the edge's
target). -/
def downStep (g : ServiceGraph) (serviceId : String)
    (recur : String → List String → Criticality → TraverseSt → TraverseSt)
    (path : List String) (crit : Criticality)
    (st : TraverseSt) (eid : String) : TraverseSt :=
  match jsGet g.edges eid with
  | none => st
  | some edge =>
    let newPath := path ++ [edge.target]
    let newCrit := ServiceGraph.mergeCriticality crit edge.criticality
    recur edge.target newPath newCrit
      { st with paths := st.paths ++
          [{ source := serviceId, affected := edge.target,
             path := newPath, hops := newPath.length,
             criticality := newCrit }] }

/-- The recursive `traverse` closure of `getDownstreamImpact`, over
outgoing edges. -/
def downTraverse (g : ServiceGraph) (serviceId : String) :
    Nat → String → List String → Criticality → TraverseSt → TraverseSt
  | 0, _, _, _, st => st
  | fuel + 1, current, path, crit, st =>
    if st.visited.contains current then st
    else
      (jsGetD g.outgoing current []).foldl
        (downStep g serviceId
          (fun c p cr s => downTraverse g serviceId fuel c p cr s) path crit)
        { st with visited := st.visited ++ [current] }

/-- Stable insertion (before the first strictly larger element) used to
model the stable `sort((a, b) => a.hops - b.hops)`. -/
def insertByHops (p : ImpactPath) : List ImpactPath → List ImpactPath
  | [] => [p]
  | q :: rest =>
    if p.hops ≤ q.hops then p :: q :: rest else q :: insertByHops p rest

/-- Stable ascending sort by `hops`. -/
def sortByHops : List ImpactPath → List ImpactPath
  | [] => []
  | p :: rest => insertByHops p (sortByHops rest)

/-- `getUpstreamImpact(serviceId, maxDepth = 5)`: DFS over incoming
edges starting from `path = [serviceId]`, `depth = 0`,
`criticality = 'critical'`; results sorted ascending by hops. -/
def getUpstreamImpact (g : ServiceGraph) (serviceId : String)
    (maxDepth : Nat := 5) : List ImpactPath :=
  sortByHops (upTraverse g serviceId (maxDepth + 1) serviceId [serviceId]
    .critical ⟨[], []⟩).paths

/-- `getDownstreamImpact(serviceId, maxDepth = 5)`. -/
def getDownstreamImpact (g : ServiceGraph) (serviceId : String)
    (maxDepth : Nat := 5) : List ImpactPath :=
  sortByHops (downTraverse g serviceId (maxDepth + 1) serviceId [serviceId]
    .critical ⟨[], []⟩).paths

/-- The JSON document shape `{ nodes[], edges[] }` of `toJSON`. -/
structure GraphJSON where
  nodes : List ServiceNode
  edges : List DependencyEdge
deriving DecidableEq, Repr

/-- `toJSON`, at the data level: the values of the node and edge maps. -/
def toJSONData (g : ServiceGraph) : GraphJSON :=
  ⟨g.nodes.map Prod.snd, g.edges.map Prod.snd⟩

/-- The argument `fromJSON` passes to `addService` for a parsed node:
the spread `{...node, createdAt: new Date(...), updatedAt: ...}`, whose
timestamp fields `addService` immediately overwrites — so only the
input part survives. -/
def inputOfNode (n : ServiceNode) : ServiceNodeInput :=
  { id := n.id, name := n.name, type := n.type, team := n.team,
    owner := n.owner, tier := n.tier, repository := n.repository,
    documentation := n.documentation, runbooks := n.runbooks,
    tags := n.tags, metadata := n.metadata }

/-- The argument `fromJSON` passes to `addDependency` for a parsed edge
(`addDependency` recomputes the id from source/target). -/
def inputOfEdge (e : DependencyEdge) : DependencyEdgeInput :=
  { source := e.source, target := e.target, type := e.type,
    protocol := e.protocol, criticality := e.criticality,
    description := e.description, metadata := e.metadata }

/-- `fromJSON`, at the data level, run at clock value `now`: re-adds
every node through `addService` (which stamps `now` on both
timestamps) and every edge through `addDependency`. -/
def fromJSONData (data : GraphJSON) (now : Nat) : ServiceGraph :=
  let g := data.nodes.foldl (fun g n => addService g (inputOfNode n) now) empty
  data.edges.foldl (fun g e => addDependency g (inputOfEdge e)) g

end ServiceGraph
end ServiceGraphModel

section ServiceContextModel

/-! ## ServiceContextManager.calculateBlastRadius

Embedding of the blast-radius computation of `service-context.ts`: it
walks the `ImpactPath` list of `getUpstreamImpact`, deduplicates by
affected id, classifies `hops === 1` as direct and the rest as
transitive, and collects critical services and critical paths. -/

/-- Shape of the blast radius result (`BlastRadiusInfo`). -/
structure BlastRadiusInfo where
  directDependents : List ServiceNode
  transitiveDependents : List ServiceNode
  criticalServicesAffected : List ServiceNode
  totalAffected : Nat
  criticalPaths : List ImpactPath
deriving DecidableEq, Repr

/-- Accumulator of the `for (const path of impactPaths)` loop. -/
structure BRAcc where
  seen : List String
  direct : List ServiceNode
  transitive : List ServiceNode
  criticalAffected : List ServiceNode
  criticalPaths : List ImpactPath
deriving DecidableEq, Repr

/-- One iteration of the blast-radius loop. -/
def brStep (g : ServiceGraph) (acc : BRAcc) (p : ImpactPath) : BRAcc :=
  if acc.seen.contains p.affected then acc
  else
    let acc := { acc with seen := acc.seen ++ [p.affected] }
    match ServiceGraph.getService g p.affected with
    | none => acc
    | some svc =>
      let acc :=
        if p.hops = 1 then { acc with direct := acc.direct ++ [svc] }
        else { acc with transitive := acc.transitive ++ [svc] }
      if svc.tier = some .critical then
        let acc := { acc with criticalAffected := acc.criticalAffected ++ [svc] }
        if p.criticality = .critical then
          { acc with criticalPaths := acc.criticalPaths ++ [p] }
        else acc
      else acc

/-- `calculateBlastRadius(serviceId)` with the configured
`maxDependentsDepth` passed explicitly. -/
def calculateBlastRadius (g : ServiceGraph) (serviceId : String)
    (maxDependentsDepth : Nat) : BlastRadiusInfo :=
  let impactPaths := ServiceGraph.getUpstreamImpact g serviceId maxDependentsDepth
  let acc := impactPaths.foldl (brStep g) ⟨[], [], [], [], []⟩
  { directDependents := acc.direct,
    transitiveDependents := acc.transitive,
    criticalServicesAffected := acc.criticalAffected,
    totalAffected := acc.direct.length + acc.transitive.length,
    criticalPaths := acc.criticalPaths }

end ServiceContextModel

section ServiceGraphClaimDefs

/-! Claim-side formalizations for the ServiceGraph claims: the
criticality of a stored path as the specification words it ("the
minimum of the edges' criticality along the stored path"). -/

/-- The criticalities of the edges along a stored upstream path: a
consecutive pair `(x, y)` of an upstream path was produced by the edge
`y -> x`. -/
def upstreamPathEdgeCrits (g : ServiceGraph) : List String → List Criticality
  | x :: y :: rest =>
    (match ServiceGraph.getDependency g y x with
     | some e => [e.criticality]
     | none => []) ++ upstreamPathEdgeCrits g (y :: rest)
  | _ => []

/-- The minimum of a list of criticalities under
`critical < degraded < optional` (`none` for the empty list). -/
def minCriticality : List Criticality → Option Criticality
  | [] => none
  | c :: rest => some (rest.foldl ServiceGraph.mergeCriticality c)

end ServiceGraphClaimDefs

namespace ServiceGraph

/-- Merging anything into `critical` yields `critical`: `critical` is
least in the order `{critical: 0, degraded: 1, optional: 2}`. -/
theorem mergeCriticality_critical_left (b : Criticality) :
    mergeCriticality .critical b = .critical := by
  cases b <;> rfl

/-- The well-formedness invariant of the traversal output: every
accumulated path has criticality `critical`, hops equal to the stored
path length, and at least two entries in the stored path. -/
def pathsOk (st : TraverseSt) : Prop :=
  ∀ p ∈ st.paths, p.criticality = .critical ∧ p.hops = p.path.length ∧ 2 ≤ p.hops

theorem upStep_fold_inv (g : ServiceGraph) (sid : String)
    (recur : String → List String → Criticality → TraverseSt → TraverseSt)
    (hrec : ∀ c p st, 1 ≤ List.length p → pathsOk st →
      pathsOk (recur c p .critical st))
    (path : List String) (hpath : 1 ≤ path.length) :
    ∀ (lst : List String) (st : TraverseSt), pathsOk st →
      pathsOk (lst.foldl (upStep g sid recur path .critical) st) := by
  intro lst
  induction lst with
  | nil => exact fun st h => h
  | cons eid rest ihl =>
    intro st h
    rw [List.foldl_cons]
    apply ihl
    unfold upStep
    cases hedge : jsGet g.edges eid with
    | none => exact h
    | some edge =>
      simp only
      rw [mergeCriticality_critical_left]
      apply hrec
      · simp only [List.length_append, List.length_singleton]
        omega
      · intro p hp
        simp only [List.mem_append, List.mem_singleton] at hp
        rcases hp with hp | hp
        · exact h p hp
        · subst hp
          refine ⟨rfl, rfl, ?_⟩
          simp only [List.length_append, List.length_singleton]
          omega

theorem upTraverse_inv (g : ServiceGraph) (sid : String) :
    ∀ fuel current path st, 1 ≤ path.length → pathsOk st →
      pathsOk (upTraverse g sid fuel current path .critical st) := by
  intro fuel
  induction fuel with
  | zero => intro current path st _ hst; exact hst
  | succ fuel ih =>
    intro current path st hpath hst
    rw [upTraverse]
    split
    · exact hst
    · exact upStep_fold_inv g sid _
        (fun c p st' h1 h2 => ih c p st' h1 h2) path hpath _ _ hst

theorem downStep_fold_inv (g : ServiceGraph) (sid : String)
    (recur : String → List String → Criticality → TraverseSt → TraverseSt)
    (hrec : ∀ c p st, 1 ≤ List.length p → pathsOk st →
      pathsOk (recur c p .critical st))
    (path : List String) (hpath : 1 ≤ path.length) :
    ∀ (lst : List String) (st : TraverseSt), pathsOk st →
      pathsOk (lst.foldl (downStep g sid recur path .critical) st) := by
  intro lst
  induction lst with
  | nil => exact fun st h => h
  | cons eid rest ihl =>
    intro st h
    rw [List.foldl_cons]
    apply ihl
    unfold downStep
    cases hedge : jsGet g.edges eid with
    | none => exact h
    | some edge =>
      simp only
      rw [mergeCriticality_critical_left]
      apply hrec
      · simp only [List.length_append, List.length_singleton]
        omega
      · intro p hp
        simp only [List.mem_append, List.mem_singleton] at hp
        rcases hp with hp | hp
        · exact h p hp
        · subst hp
          refine ⟨rfl, rfl, ?_⟩
          simp only [List.length_append, List.length_singleton]
          omega

theorem downTraverse_inv (g : ServiceGraph) (sid : String) :
    ∀ fuel current path st, 1 ≤ path.length → pathsOk st →
      pathsOk (downTraverse g sid fuel current path .critical st) := by
  intro fuel
  induction fuel with
  | zero => intro current path st _ hst; exact hst
  | succ fuel ih =>
    intro current path st hpath hst
    rw [downTraverse]
    split
    · exact hst
    · exact downStep_fold_inv g sid _
        (fun c p st' h1 h2 => ih c p st' h1 h2) path hpath _ _ hst

theorem mem_insertByHops {p q : ImpactPath} {l : List ImpactPath} :
    q ∈ insertByHops p l ↔ q = p ∨ q ∈ l := by
  induction l with
  | nil => simp [insertByHops]
  | cons r rest ih =>
    by_cases h : p.hops ≤ r.hops
    · simp [insertByHops, h]
    · simp only [insertByHops, h, if_false, List.mem_cons, ih]
      tauto

theorem mem_sortByHops {q : ImpactPath} {l : List ImpactPath} :
    q ∈ sortByHops l ↔ q ∈ l := by
  induction l with
  | nil => simp [sortByHops]
  | cons p rest ih =>
    simp only [sortByHops, mem_insertByHops, List.mem_cons, ih]

/-- Every path returned by `getUpstreamImpact` satisfies the traversal
invariant. -/
theorem getUpstreamImpact_pathsOk (g : ServiceGraph) (v : String)
    (d : Nat) (p : ImpactPath) (hp : p ∈ getUpstreamImpact g v d) :
    p.criticality = .critical ∧ p.hops = p.path.length ∧ 2 ≤ p.hops := by
  have h := upTraverse_inv g v (d + 1) v [v] ⟨[], []⟩
    (by simp) (by intro q hq; simp [TraverseSt.paths] at hq)
  exact h p (mem_sortByHops.mp hp)

/-- Every path returned by `getDownstreamImpact` satisfies the
traversal invariant. -/
theorem getDownstreamImpact_pathsOk (g : ServiceGraph) (v : String)
    (d : Nat) (p : ImpactPath) (hp : p ∈ getDownstreamImpact g v d) :
    p.criticality = .critical ∧ p.hops = p.path.length ∧ 2 ≤ p.hops := by
  have h := downTraverse_inv g v (d + 1) v [v] ⟨[], []⟩
    (by simp) (by intro q hq; simp [TraverseSt.paths] at hq)
  exact h p (mem_sortByHops.mp hp)

end ServiceGraph

section BlastRadiusLemmas

open ServiceGraph

/-- Characterization of one blast-radius loop step when the path has
more than one hop: either the affected id was already seen and nothing
changes, or it is appended to `seen` and — exactly when its service
exists — that service is appended to `transitive`; `direct` never
changes. -/
theorem brStep_char (g : ServiceGraph) (acc : BRAcc) (p : ImpactPath)
    (hh : p.hops ≠ 1) :
    (brStep g acc p).direct = acc.direct ∧
    (p.affected ∈ acc.seen ∧
      (brStep g acc p).seen = acc.seen ∧
      (brStep g acc p).transitive = acc.transitive ∨
     p.affected ∉ acc.seen ∧
      (brStep g acc p).seen = acc.seen ++ [p.affected] ∧
      ((brStep g acc p).transitive = acc.transitive ∧
        ServiceGraph.getService g p.affected = none ∨
       ∃ svc, ServiceGraph.getService g p.affected = some svc ∧
        (brStep g acc p).transitive = acc.transitive ++ [svc])) := by
  by_cases hc : p.affected ∈ acc.seen
  · refine ⟨?_, Or.inl ⟨hc, ?_, ?_⟩⟩ <;> simp [brStep, hc]
  · cases hsvc : ServiceGraph.getService g p.affected with
    | none =>
      refine ⟨?_, Or.inr ⟨hc, ?_, Or.inl ⟨?_, rfl⟩⟩⟩ <;>
        simp [brStep, hc, hsvc]
    | some svc =>
      refine ⟨?_, Or.inr ⟨hc, ?_, Or.inr ⟨svc, rfl, ?_⟩⟩⟩ <;>
        (simp only [brStep, hsvc, if_neg hh]
         repeat' split) <;> simp_all

/-- The loop invariant of `calculateBlastRadius`: every seen id whose
service exists has been classified into `transitive` (given that no
path has exactly one hop). -/
def BRInv (g : ServiceGraph) (acc : BRAcc) : Prop :=
  ∀ a s, a ∈ acc.seen → ServiceGraph.getService g a = some s →
    s ∈ acc.transitive

theorem brStep_inv (g : ServiceGraph) (acc : BRAcc) (p : ImpactPath)
    (hh : p.hops ≠ 1) (hI : BRInv g acc) : BRInv g (brStep g acc p) := by
  intro a s ha hs
  rcases brStep_char g acc p hh with
    ⟨_, ⟨_, hseen, htrans⟩ | ⟨_, hseen, hrest⟩⟩
  · rw [htrans]; exact hI a s (hseen ▸ ha) hs
  · rw [hseen] at ha
    rcases List.mem_append.mp ha with ha' | ha'
    · rcases hrest with ⟨htrans, _⟩ | ⟨svc, _, htrans⟩
      · rw [htrans]; exact hI a s ha' hs
      · rw [htrans]; exact List.mem_append_left _ (hI a s ha' hs)
    · rw [List.mem_singleton] at ha'
      subst ha'
      rcases hrest with ⟨_, hnone⟩ | ⟨svc, hsvc, htrans⟩
      · rw [hs] at hnone; cases hnone
      · rw [hs] at hsvc
        cases hsvc
        rw [htrans]; simp

theorem brStep_seen_sub (g : ServiceGraph) (acc : BRAcc) (p : ImpactPath)
    (hh : p.hops ≠ 1) (a : String) (h : a ∈ acc.seen) :
    a ∈ (brStep g acc p).seen := by
  rcases brStep_char g acc p hh with ⟨_, ⟨_, hseen, _⟩ | ⟨_, hseen, _⟩⟩ <;>
    rw [hseen] <;> simp [h]

theorem brStep_trans_sub (g : ServiceGraph) (acc : BRAcc) (p : ImpactPath)
    (hh : p.hops ≠ 1) (s : ServiceNode) (h : s ∈ acc.transitive) :
    s ∈ (brStep g acc p).transitive := by
  rcases brStep_char g acc p hh with
    ⟨_, ⟨_, _, htrans⟩ | ⟨_, _, ⟨htrans, _⟩ | ⟨svc, _, htrans⟩⟩⟩ <;>
    rw [htrans] <;> simp [h]

theorem brStep_affected_mem (g : ServiceGraph) (acc : BRAcc)
    (p : ImpactPath) (hh : p.hops ≠ 1) :
    p.affected ∈ (brStep g acc p).seen := by
  rcases brStep_char g acc p hh with
    ⟨_, ⟨hc, hseen, _⟩ | ⟨_, hseen, _⟩⟩
  · rw [hseen]; exact hc
  · rw [hseen]; simp

theorem foldl_brStep_direct (g : ServiceGraph) (ps : List ImpactPath)
    (h : ∀ p ∈ ps, p.hops ≠ 1) :
    ∀ acc : BRAcc, (ps.foldl (brStep g) acc).direct = acc.direct := by
  induction ps with
  | nil => intro acc; rfl
  | cons p rest ih =>
    intro acc
    rw [List.foldl_cons, ih (fun q hq => h q (List.mem_cons_of_mem _ hq)),
      (brStep_char g acc p (h p (List.mem_cons_self _ _))).1]

theorem foldl_brStep_seen_sub (g : ServiceGraph) (ps : List ImpactPath)
    (h : ∀ p ∈ ps, p.hops ≠ 1) (a : String) :
    ∀ acc : BRAcc, a ∈ acc.seen → a ∈ (ps.foldl (brStep g) acc).seen := by
  induction ps with
  | nil => intro acc ha; exact ha
  | cons p rest ih =>
    intro acc ha
    exact ih (fun q hq => h q (List.mem_cons_of_mem _ hq)) (brStep g acc p)
      (brStep_seen_sub g acc p (h p (List.mem_cons_self _ _)) a ha)

theorem foldl_brStep_affected (g : ServiceGraph) (ps : List ImpactPath)
    (h : ∀ p ∈ ps, p.hops ≠ 1) (p : ImpactPath) (hp : p ∈ ps) :
    ∀ acc : BRAcc, p.affected ∈ (ps.foldl (brStep g) acc).seen := by
  induction ps with
  | nil => cases hp
  | cons q rest ih =>
    intro acc
    rcases List.mem_cons.mp hp with heq | hmem
    · subst heq
      exact foldl_brStep_seen_sub g rest
        (fun r hr => h r (List.mem_cons_of_mem _ hr)) p.affected _
        (brStep_affected_mem g acc p (h p (List.mem_cons_self _ _)))
    · exact ih (fun r hr => h r (List.mem_cons_of_mem _ hr)) hmem _

theorem foldl_brStep_inv (g : ServiceGraph) (ps : List ImpactPath)
    (h : ∀ p ∈ ps, p.hops ≠ 1) :
    ∀ acc : BRAcc, BRInv g acc → BRInv g (ps.foldl (brStep g) acc) := by
  induction ps with
  | nil => intro acc hI; exact hI
  | cons p rest ih =>
    intro acc hI
    exact ih (fun q hq => h q (List.mem_cons_of_mem _ hq)) _
      (brStep_inv g acc p (h p (List.mem_cons_self _ _)) hI)

end BlastRadiusLemmas

section ServiceGraphClaims

open ServiceGraph

/-- A two-node graph with one `degraded` edge `a -> b`: the minimal
configuration on which path criticality and edge-minimum differ. -/
def exGraphC1 : ServiceGraph :=
  addDependency
    (addService (addService empty {id := "a", name := "A", type := .service} 0)
      {id := "b", name := "B", type := .service} 0)
    {source := "a", target := "b", type := .sync, criticality := .degraded}

/-- C1, counterexample: on the graph with the single `degraded` edge
`a -> b`, `getUpstreamImpact("b")` returns one path `[b, a]` whose
criticality is `critical`, while the minimum of the edge criticalities
along the stored path (the single `degraded` edge) is `degraded` — the
claimed equality fails because the traversal seeds its fold with
`critical`, the least element of `critical < degraded < optional`. -/
theorem C1_counterexample :
    getUpstreamImpact exGraphC1 "b" 5 =
      [{ source := "b", affected := "a", path := ["b", "a"], hops := 2,
         criticality := .critical }] ∧
    minCriticality (upstreamPathEdgeCrits exGraphC1 ["b", "a"]) =
      some .degraded ∧
    Criticality.critical ≠ Criticality.degraded := by
  refine ⟨by decide, rfl, by decide⟩

/-- C1 (amended): every `ImpactPath` returned by `getUpstreamImpact`
(and symmetrically `getDownstreamImpact`) has criticality equal to the
minimum — under `critical < degraded < optional` — of `critical`
together with the edges' criticality along the stored path; since
`critical` is the least element, that minimum, and hence every returned
criticality, is always `critical`. -/
theorem C1_impact_criticality_constant (g : ServiceGraph) (v : String)
    (d : Nat) :
    (∀ p ∈ getUpstreamImpact g v d, p.criticality = .critical) ∧
    (∀ p ∈ getDownstreamImpact g v d, p.criticality = .critical) :=
  ⟨fun p hp => (getUpstreamImpact_pathsOk g v d p hp).1,
   fun p hp => (getDownstreamImpact_pathsOk g v d p hp).1⟩

/-- C1, witness: the amended theorem applied to the concrete graph
`exGraphC1` and its concrete upstream path. -/
theorem C1_impact_criticality_witness :
    ({ source := "b", affected := "a", path := ["b", "a"], hops := 2,
       criticality := .critical } : ImpactPath).criticality = .critical :=
  (C1_impact_criticality_constant exGraphC1 "b" 5).1 _ (by decide)

/-- A two-node graph with one edge, built at clock value 0, used to
exhibit the timestamp loss of the JSON round-trip. -/
def exGraphC2 : ServiceGraph :=
  addDependency
    (addService (addService empty {id := "api", name := "API", type := .service} 0)
      {id := "db", name := "DB", type := .database} 0)
    {source := "api", target := "db", type := .database, criticality := .critical}

/-- C2: `fromJSON(g.toJSON())` preserves the node ids and the edge set,
but not the timestamps: `addService` overwrites `createdAt`/`updatedAt`
with the time of the `fromJSON` call (the `new Date(node.createdAt)`
computed inside `fromJSON` is discarded). On the concrete graph built
at time 0 and re-imported at time 1000, the restored node carries
timestamp 1000, so the round-tripped graph differs from the original
exactly in its timestamps. -/
theorem C2_roundtrip_loses_timestamps :
    ((fromJSONData (toJSONData exGraphC2) 1000).getService "api").map
        ServiceNode.createdAt = some 1000 ∧
    ((exGraphC2.getService "api").map ServiceNode.createdAt = some 0) ∧
    toJSONData (fromJSONData (toJSONData exGraphC2) 1000) ≠
      toJSONData exGraphC2 ∧
    (toJSONData (fromJSONData (toJSONData exGraphC2) 1000)).nodes.map
        ServiceNode.id = (toJSONData exGraphC2).nodes.map ServiceNode.id ∧
    (fromJSONData (toJSONData exGraphC2) 1000).edges = exGraphC2.edges := by
  refine ⟨rfl, rfl, by decide, rfl, rfl⟩

/-- The chain graph `frontend -> api -> db` used as the blast-radius
witness configuration. -/
def exGraphC9 : ServiceGraph :=
  addDependency (addDependency
    (addService (addService (addService empty
      {id := "frontend", name := "Frontend", type := .service} 0)
      {id := "api", name := "API", type := .service} 0)
      {id := "db", name := "Database", type := .database} 0)
    {source := "frontend", target := "api", type := .sync, criticality := .critical})
    {source := "api", target := "db", type := .database, criticality := .critical}

/-- C9: every `ImpactPath` of `getUpstreamImpact` has `hops` equal to
the length of its stored path, which includes the start node, so
`hops ≥ 2` even for direct dependents; consequently
`calculateBlastRadius` — which classifies a dependent as direct exactly
when `hops = 1` — always returns an empty `directDependents` list, and
every affected service that exists in the graph lands in
`transitiveDependents`. -/
theorem C9_blast_radius_all_transitive (g : ServiceGraph) (v : String)
    (d : Nat) :
    (∀ p ∈ getUpstreamImpact g v d,
      p.hops = p.path.length ∧ 2 ≤ p.hops) ∧
    (calculateBlastRadius g v d).directDependents = [] ∧
    (∀ p ∈ getUpstreamImpact g v d, ∀ s,
      getService g p.affected = some s →
      s ∈ (calculateBlastRadius g v d).transitiveDependents) := by
  have hops : ∀ p ∈ getUpstreamImpact g v d, p.hops ≠ 1 := by
    intro p hp
    have := (getUpstreamImpact_pathsOk g v d p hp).2.2
    omega
  refine ⟨?_, ?_, ?_⟩
  · intro p hp
    exact ⟨(getUpstreamImpact_pathsOk g v d p hp).2.1,
      (getUpstreamImpact_pathsOk g v d p hp).2.2⟩
  · exact foldl_brStep_direct g _ hops _
  · intro p hp s hs
    have hI := foldl_brStep_inv g (getUpstreamImpact g v d) hops
      ⟨[], [], [], [], []⟩ (by intro a s' ha; cases ha)
    exact hI p.affected s
      (foldl_brStep_affected g _ hops p hp _) hs

/-- C9, witness: the theorem applied to the chain
`frontend -> api -> db` at `db`: no direct dependents, and the `api`
node — an affected service — sits in `transitiveDependents`. -/
theorem C9_blast_radius_witness :
    (calculateBlastRadius exGraphC9 "db" 5).directDependents = [] ∧
    ({ id := "api", name := "API", type := .service, createdAt := 0,
       updatedAt := 0 } : ServiceNode) ∈
      (calculateBlastRadius exGraphC9 "db" 5).transitiveDependents :=
  ⟨(C9_blast_radius_all_transitive exGraphC9 "db" 5).2.1,
   (C9_blast_radius_all_transitive exGraphC9 "db" 5).2.2
     { source := "db", affected := "api", path := ["db", "api"], hops := 2,
       criticality := .critical }
     (by decide) _ (by decide)⟩

end ServiceGraphClaims

section InvestigationMemoryModel

/-! ## InvestigationMemory

Embedding of `investigation-memory.ts`: the `InvestigationState` record,
`addNote`, and `addHypothesisUpdate`. Note ids are generated in the
source from the clock and `Math.random()`; the model takes the clock
value `now` and the random suffix `rand` as explicit parameters. Only
the `id` and `statement` fields of `Hypothesis` are consumed by this
module, so the model carries exactly those. -/

inductive FindingType
  | symptom | evidence | hypothesis_update | root_cause_candidate
  | remediation_step | escalation | service_impact
deriving DecidableEq, Repr

inductive EvidenceStrength
  | pending | none | weak | strong | contradicting
deriving DecidableEq, Repr

inductive ConfidenceLevel
  | low | medium | high
deriving DecidableEq, Repr

inductive HealthStatus
  | ok | degraded | critical | unknown
deriving DecidableEq, Repr

/-- A structured note (interface `InvestigationNote`). -/
structure InvestigationNote where
  id : String
  type : FindingType
  content : String
  confidence : ConfidenceLevel
  evidenceStrength : Option EvidenceStrength := Option.none
  sourceResultIds : List String := []
  servicesInvolved : List String := []
  hypothesisId : Option String := Option.none
  timestamp : Nat
  iteration : Nat
deriving DecidableEq, Repr

/-- The `confirmedRootCause` record. -/
structure RootCause where
  hypothesis : String
  confidence : ConfidenceLevel
  evidence : List String
deriving DecidableEq, Repr

/-- The investigation state (interface `InvestigationState`). -/
structure InvestigationState where
  query : String
  incidentId : Option String := Option.none
  sessionId : String
  notes : List InvestigationNote := []
  progressSummary : String := "Investigation started."
  servicesDiscovered : List String := []
  symptomsIdentified : List String := []
  activeHypotheses : List String := []
  prunedHypotheses : List String := []
  confirmedRootCause : Option RootCause := Option.none
  currentIteration : Nat := 0
  startedAt : Nat := 0
  lastUpdatedAt : Nat := 0
deriving DecidableEq, Repr

/-- The part of a `Hypothesis` consumed by `InvestigationMemory`. -/
structure Hypothesis where
  id : String
  statement : String
deriving DecidableEq, Repr

/-- The optional arguments of `addNote`. -/
structure NoteOptions where
  confidence : Option ConfidenceLevel := Option.none
  evidenceStrength : Option EvidenceStrength := Option.none
  sourceResultIds : Option (List String) := Option.none
  servicesInvolved : Option (List String) := Option.none
  hypothesisId : Option String := Option.none
deriving DecidableEq, Repr

/-- `addNote`: appends the note, bumps `lastUpdatedAt`, and merges the
note's services into `servicesDiscovered` (keeping only those not
already present). -/
def addNote (st : InvestigationState) (type : FindingType)
    (content : String) (options : NoteOptions) (now : Nat)
    (rand : String) : InvestigationState × InvestigationNote :=
  let note : InvestigationNote :=
    { id := "note-" ++ toString now ++ "-" ++ rand,
      type := type, content := content,
      confidence := options.confidence.getD .medium,
      evidenceStrength := options.evidenceStrength,
      sourceResultIds := options.sourceResultIds.getD [],
      servicesInvolved := options.servicesInvolved.getD [],
      hypothesisId := options.hypothesisId,
      timestamp := now, iteration := st.currentIteration }
  let st₁ := { st with notes := st.notes ++ [note], lastUpdatedAt := now }
  let st₂ :=
    if 0 < note.servicesInvolved.length then
      { st₁ with servicesDiscovered := st₁.servicesDiscovered ++
          (note.servicesInvolved.filter (fun s =>
            !(st₁.servicesDiscovered.contains s))) }
    else st₁
  (st₂, note)

inductive HypothesisAction
  | formed | pruned | confirmed
deriving DecidableEq, Repr

/-- The string form of a hypothesis action, used in the note content. -/
def HypothesisAction.str : HypothesisAction → String
  | .formed => "formed"
  | .pruned => "pruned"
  | .confirmed => "confirmed"

/-- `addHypothesisUpdate`: tracks active/pruned hypothesis ids; on
`confirmed`, sets `confirmedRootCause` to the hypothesis statement with
the contents of every note of type `evidence` attached to the
hypothesis (regardless of evidence strength); then appends a
`hypothesis_update` note. -/
def addHypothesisUpdate (st : InvestigationState) (h : Hypothesis)
    (action : HypothesisAction) (reasoning : Option String) (now : Nat)
    (rand : String) : InvestigationState × InvestigationNote :=
  let st₁ :=
    if action = .formed ∨ action = .confirmed then
      if st.activeHypotheses.contains h.id then st
      else { st with activeHypotheses := st.activeHypotheses ++ [h.id] }
    else st
  let st₂ :=
    if action = .pruned then
      let stp := { st₁ with activeHypotheses :=
        st₁.activeHypotheses.filter (fun id => id ≠ h.id) }
      if stp.prunedHypotheses.contains h.id then stp
      else { stp with prunedHypotheses := stp.prunedHypotheses ++ [h.id] }
    else st₁
  let st₃ :=
    if action = .confirmed then
      { st₂ with confirmedRootCause := some {
            hypothesis := h.statement, confidence := .high,
            evidence := ((st₂.notes.filter (fun n =>
              n.hypothesisId == some h.id &&
              n.type == FindingType.evidence)).map
              InvestigationNote.content) } }
    else st₂
  let content := "Hypothesis " ++ h.id ++ " " ++ action.str ++ ": " ++
    h.statement ++
    (match reasoning with
     | some r => ". Reasoning: " ++ r
     | Option.none => "")
  addNote st₃ .hypothesis_update content
    { confidence := some (if action = .confirmed then .high else .medium),
      hypothesisId := some h.id } now rand

end InvestigationMemoryModel

section InvestigationMemoryClaims

/-- The claim-side notion for C4: the contents of the strong-evidence
notes attached to a hypothesis. -/
def strongEvidenceContents (st : InvestigationState) (h : Hypothesis) :
    List String :=
  (st.notes.filter (fun n => n.hypothesisId == some h.id &&
    n.evidenceStrength == some EvidenceStrength.strong)).map
    InvestigationNote.content

/-- A state holding one weak-evidence note attached to hypothesis `h1`. -/
def exStateC4 : InvestigationState :=
  { query := "q", sessionId := "s",
    notes := [{ id := "note-1", type := .evidence, content := "weak clue",
                confidence := .low, evidenceStrength := some .weak,
                sourceResultIds := ["r1"], hypothesisId := some "h1",
                timestamp := 1, iteration := 0 }],
    activeHypotheses := ["h1"] }

/-- The hypothesis being confirmed in the C4 counterexample. -/
def exHypC4 : Hypothesis :=
  { id := "h1", statement := "DB connection pool exhausted" }

/-- C4, counterexample: confirming `h1` over a state whose only
attached note is *weak* evidence produces a `confirmedRootCause` whose
evidence list is `["weak clue"]`, while the contents of the
strong-evidence notes attached to `h1` form the empty list — the
evidence list therefore does not aggregate exactly the strong-evidence
note contents. -/
theorem C4_counterexample :
    ((addHypothesisUpdate exStateC4 exHypC4 .confirmed Option.none 5
        "ab").1.confirmedRootCause =
      some { hypothesis := "DB connection pool exhausted",
             confidence := .high, evidence := ["weak clue"] }) ∧
    strongEvidenceContents exStateC4 exHypC4 = [] ∧
    (["weak clue"] : List String) ≠ [] := by
  refine ⟨by decide, by decide, by decide⟩

/-- C4 (amended): marking a hypothesis confirmed populates
`confirmedRootCause` with that hypothesis's statement (at confidence
`high`), and its evidence list aggregates exactly the contents of
*every* note of type `evidence` attached to that hypothesis,
regardless of the note's evidence strength. -/
theorem C4_confirm_aggregates_all_evidence (st : InvestigationState)
    (h : Hypothesis) (reasoning : Option String) (now : Nat)
    (rand : String) :
    ((addHypothesisUpdate st h .confirmed reasoning now
        rand).1).confirmedRootCause =
      some { hypothesis := h.statement, confidence := .high,
             evidence := (st.notes.filter (fun n =>
               n.hypothesisId == some h.id &&
               n.type == FindingType.evidence)).map
               InvestigationNote.content } := by
  unfold addHypothesisUpdate addNote
  split
  · split <;> simp
  · simp

end InvestigationMemoryClaims

section CompactorModel

/-! ## ContextCompactor

Embedding of the six-axis scoring and plan production of
`context-compactor.ts`. Scores are `Rat` (the decimal weights and
thresholds of the source compare identically in `Rat` and IEEE
doubles). `entry.args` is modelled as a flat string record and
`entry.result` as the string case of the source's
`typeof entry.result === 'string'` branch; `JSON.stringify` of the
args record is `jsonStringify`. The `compactResults` map (keyed by
object identity in the source) is modelled as an association list
keyed by the entry value. -/

/-- A tool-result entry (type `ToolResultEntry`). The `resultId` field
models the duck-typed property read by
`(scored.entry as TieredToolResult).resultId`: present when the entry
is actually a `TieredToolResult`, absent (`none`) otherwise. -/
structure ToolResultEntry where
  tool : String
  args : List (String × String)
  result : String
  durationMs : Nat
  timestamp : String
  resultId : Option String := Option.none
deriving DecidableEq, Repr

/-- A compact summary (type `CompactToolResult` of the summarizer). -/
structure CompactToolResult where
  resultId : String
  summary : String
  services : List String
  healthStatus : HealthStatus
  hasErrors : Bool
deriving DecidableEq, Repr

/-- The score weights. -/
structure ScoreWeights where
  recency : Rat
  queryRelevance : Rat
  errorSignals : Rat
  hypothesisRelevance : Rat
  serviceRelevance : Rat
  citedInNotes : Rat
deriving DecidableEq, Repr

/-- The compactor configuration. -/
structure CompactorConfig where
  weights : ScoreWeights
  maxFullResults : Nat
  maxCompactResults : Nat
  minScoreForFull : Rat
  minScoreToKeep : Rat
  tokensPerFullResult : Nat
  tokensPerCompactResult : Nat
deriving DecidableEq, Repr

/-- `DEFAULT_CONFIG`. -/
def DEFAULT_CONFIG : CompactorConfig :=
  { weights := { recency := 0.20, queryRelevance := 0.20,
                 errorSignals := 0.20, hypothesisRelevance := 0.15,
                 serviceRelevance := 0.10, citedInNotes := 0.15 },
    maxFullResults := 10, maxCompactResults := 15,
    minScoreForFull := 0.6, minScoreToKeep := 0.2,
    tokensPerFullResult := 2000, tokensPerCompactResult := 150 }

/-- The score component breakdown. -/
structure ScoreComponents where
  recency : Rat
  queryRelevance : Rat
  errorSignals : Rat
  hypothesisRelevance : Rat
  serviceRelevance : Rat
  citedInNotes : Rat
deriving DecidableEq, Repr

/-- A scored result. -/
structure ScoredResult where
  entry : ToolResultEntry
  score : Rat
  components : ScoreComponents
  compact : Option CompactToolResult
  keepFull : Bool
deriving DecidableEq, Repr

/-- A compaction plan. -/
structure CompactionPlan where
  keepFull : List ScoredResult
  keepCompact : List ScoredResult
  clear : List ScoredResult
  estimatedTokensSaved : Int
deriving DecidableEq, Repr

/-- JavaScript `new Set(list)` as an insertion-ordered dedup. -/
def jsSetOf (l : List String) : List String := l.foldl jsAdd []

/-- `scoreRecency`: linear from 0.1 (oldest) to 1.0 (newest). -/
def scoreRecency (resultIndex totalResults : Nat) : Rat :=
  if totalResults ≤ 1 then 1
  else 0.1 + 0.9 * ((resultIndex : Rat) / ((totalResults : Rat) - 1))

/-- `resultMatchesId`: result ids are `{tool}-{hash}`-shaped, so an
entry could have produced an id when the id starts with the first
three characters of the tool name. -/
def resultMatchesId (entry : ToolResultEntry) (resultId : String) : Bool :=
  strStartsWith resultId (strTake entry.tool 3)

/-- `scoreQueryRelevance`: the fraction (capped at 1) of query words of
length > 2 appearing in the serialized args or result. -/
def scoreQueryRelevance (entry : ToolResultEntry) (query : String) : Rat :=
  let queryWords := jsSetOf ((jsSplitWs (jsLower query)).filter
    (fun w => 2 < w.length))
  let argsStr := jsLower (jsonStringify entry.args)
  let resultStr := jsLower entry.result
  let matchCount := (queryWords.filter (fun w =>
    strContainsSub argsStr w || strContainsSub resultStr w)).length
  min 1 ((matchCount : Rat) / max 1 (queryWords.length : Rat))

/-- `scoreErrorSignals`. -/
def scoreErrorSignals (entry : ToolResultEntry)
    (compact : Option CompactToolResult) : Rat :=
  if (compact.map CompactToolResult.hasErrors).getD false then 1
  else if compact.map CompactToolResult.healthStatus = some .critical then 1
  else if compact.map CompactToolResult.healthStatus = some .degraded then 0.7
  else
    let resultStr := jsLower entry.result
    let criticalKeywords := ["error", "failed", "exception", "critical", "alarm"]
    let warningKeywords := ["warning", "timeout", "unhealthy", "degraded"]
    if criticalKeywords.any (fun kw => strContainsSub resultStr kw) then 1
    else if warningKeywords.any (fun kw => strContainsSub resultStr kw) then 0.6
    else 0

/-- `scoreHypothesisRelevance`. -/
def scoreHypothesisRelevance (entry : ToolResultEntry)
    (investigationState : Option InvestigationState)
    (activeHypotheses : Option (List String)) : Rat :=
  if investigationState = Option.none ∧ activeHypotheses = Option.none then 0
  else
    let hypothesisIds :=
      match activeHypotheses with
      | some l => l
      | Option.none =>
        match investigationState with
        | some s => s.activeHypotheses
        | Option.none => []
    if hypothesisIds.length = 0 then 0
    else
      let fromNotes :=
        match investigationState with
        | some s =>
          ((s.notes.filter (fun n => n.type == FindingType.evidence &&
              n.hypothesisId.isSome)).findSome? (fun note =>
            if hypothesisIds.contains (note.hypothesisId.getD "") &&
               note.sourceResultIds.any (fun id => resultMatchesId entry id) then
              some (if note.evidenceStrength == some EvidenceStrength.strong
                then (1 : Rat) else 0.7)
            else Option.none))
        | Option.none => Option.none
      match fromNotes with
      | some v => v
      | Option.none =>
        let argsStr := jsLower (jsonStringify entry.args)
        let symptoms :=
          match investigationState with
          | some s => s.symptomsIdentified
          | Option.none => []
        if symptoms.any (fun sym =>
            strContainsSub argsStr (strTake (jsLower sym) 20)) then 0.5
        else 0

/-- `scoreServiceRelevance`: first service under investigation that
matches wins (1.0 for a compact-services match, 0.8 for a textual
match). -/
def scoreServiceRelevance (entry : ToolResultEntry)
    (servicesUnderInvestigation : Option (List String))
    (compact : Option CompactToolResult) : Rat :=
  match servicesUnderInvestigation with
  | Option.none => 0
  | some services =>
    if services.length = 0 then 0
    else
      let resultServices := (compact.map CompactToolResult.services).getD []
      let argsStr := jsLower (jsonStringify entry.args)
      let resultStr := jsLower entry.result
      ((services.findSome? (fun service =>
        let serviceLower := jsLower service
        if resultServices.any (fun s =>
            strContainsSub (jsLower s) serviceLower) then some (1 : Rat)
        else if strContainsSub argsStr serviceLower ||
            strContainsSub resultStr serviceLower then some 0.8
        else Option.none)).getD 0)

/-- `scoreCitedInNotes`. The guard `!resultId || !resultIdToCited`
also rejects an empty-string result id (JS falsiness), hence the
`rid = ""` test. -/
def scoreCitedInNotes (resultId : Option String)
    (resultIdToCited : Option (List (String × Bool))) : Rat :=
  match resultId, resultIdToCited with
  | some rid, some m =>
    if rid = "" then 0
    else if (jsGet m rid).getD false then 1 else 0
  | _, _ => 0

/-- The scoring context of `scoreResult`. -/
structure ScoreContext where
  query : String
  investigationState : Option InvestigationState := Option.none
  activeHypotheses : Option (List String) := Option.none
  servicesUnderInvestigation : Option (List String) := Option.none
  resultIdToCited : Option (List (String × Bool)) := Option.none
  compact : Option CompactToolResult := Option.none
  currentIteration : Nat
  totalResults : Nat
  resultIndex : Nat
deriving DecidableEq, Repr

/-- `computeScoreComponents`. -/
def computeScoreComponents (entry : ToolResultEntry)
    (ctx : ScoreContext) : ScoreComponents :=
  { recency := scoreRecency ctx.resultIndex ctx.totalResults,
    queryRelevance := scoreQueryRelevance entry ctx.query,
    errorSignals := scoreErrorSignals entry ctx.compact,
    hypothesisRelevance := scoreHypothesisRelevance entry
      ctx.investigationState ctx.activeHypotheses,
    serviceRelevance := scoreServiceRelevance entry
      ctx.servicesUnderInvestigation ctx.compact,
    citedInNotes := scoreCitedInNotes
      (ctx.compact.map CompactToolResult.resultId) ctx.resultIdToCited }

/-- `computeWeightedScore`. -/
def computeWeightedScore (cfg : CompactorConfig)
    (c : ScoreComponents) : Rat :=
  c.recency * cfg.weights.recency +
  c.queryRelevance * cfg.weights.queryRelevance +
  c.errorSignals * cfg.weights.errorSignals +
  c.hypothesisRelevance * cfg.weights.hypothesisRelevance +
  c.serviceRelevance * cfg.weights.serviceRelevance +
  c.citedInNotes * cfg.weights.citedInNotes

/-- `scoreResult`. -/
def scoreResult (cfg : CompactorConfig) (entry : ToolResultEntry)
    (ctx : ScoreContext) : ScoredResult :=
  let components := computeScoreComponents entry ctx
  let score := computeWeightedScore cfg components
  { entry := entry, score := score, components := components,
    compact := ctx.compact, keepFull := cfg.minScoreForFull ≤ score }

/-- The helper map built by `compact` from the investigation notes:
every `resultId` in any note's `sourceResultIds` is set to `true`. -/
def buildCitedMap (state : InvestigationState) : List (String × Bool) :=
  state.notes.foldl (fun m note =>
    note.sourceResultIds.foldl (fun m rid => jsSet m rid true) m) []

/-- Lookup in the `compactResults` map (object-identity keyed in the
source, value-keyed here). -/
def compactGet (m : Option (List (ToolResultEntry × CompactToolResult)))
    (e : ToolResultEntry) : Option CompactToolResult :=
  match m with
  | Option.none => Option.none
  | some l => (l.find? (fun p => p.1 == e)).map Prod.snd

/-- The context record of `compact`. -/
structure CompactContext where
  query : String
  investigationState : Option InvestigationState := Option.none
  compactResults : Option (List (ToolResultEntry × CompactToolResult)) :=
    Option.none
  tokenBudget : Option Nat := Option.none
deriving DecidableEq, Repr

/-- Stable insertion before the first strictly smaller score, modelling
the stable `sort((a, b) => b.score - a.score)` (descending). -/
def insertByScore (r : ScoredResult) : List ScoredResult → List ScoredResult
  | [] => [r]
  | q :: rest =>
    if q.score ≤ r.score then r :: q :: rest else q :: insertByScore r rest

/-- Stable descending sort by score. -/
def sortByScoreDesc : List ScoredResult → List ScoredResult
  | [] => []
  | r :: rest => insertByScore r (sortByScoreDesc rest)

/-- Accumulator of the count-based allocation loop. -/
structure PlanAcc where
  keepFull : List ScoredResult
  keepCompact : List ScoredResult
  clear : List ScoredResult
deriving DecidableEq, Repr

/-- One iteration of the count-based allocation loop of `compact`. -/
def allocStep (cfg : CompactorConfig) (acc : PlanAcc)
    (r : ScoredResult) : PlanAcc :=
  if acc.keepFull.length < cfg.maxFullResults ∧
      cfg.minScoreForFull ≤ r.score then
    { acc with keepFull := acc.keepFull ++ [{ r with keepFull := true }] }
  else if acc.keepCompact.length < cfg.maxCompactResults ∧
      cfg.minScoreToKeep ≤ r.score then
    { acc with keepCompact :=
        acc.keepCompact ++ [{ r with keepFull := false }] }
  else
    { acc with clear := acc.clear ++ [{ r with keepFull := false }] }

/-- Accumulator of the budget-based allocation loop. -/
structure BudgetAcc where
  keepFull : List ScoredResult
  keepCompact : List ScoredResult
  clear : List ScoredResult
  usedTokens : Nat
deriving DecidableEq, Repr

/-- One iteration of `compactWithBudget`'s loop. -/
def budgetStep (cfg : CompactorConfig) (budget : Nat) (acc : BudgetAcc)
    (r : ScoredResult) : BudgetAcc :=
  if acc.usedTokens + cfg.tokensPerFullResult ≤ budget ∧
      cfg.minScoreForFull ≤ r.score then
    { acc with
      keepFull := acc.keepFull ++ [{ r with keepFull := true }],
      usedTokens := acc.usedTokens + cfg.tokensPerFullResult }
  else if acc.usedTokens + cfg.tokensPerCompactResult ≤ budget ∧
      cfg.minScoreToKeep ≤ r.score ∧ r.compact.isSome then
    { acc with
      keepCompact := acc.keepCompact ++ [{ r with keepFull := false }],
      usedTokens := acc.usedTokens + cfg.tokensPerCompactResult }
  else if acc.usedTokens + cfg.tokensPerCompactResult ≤ budget ∧
      cfg.minScoreToKeep ≤ r.score then
    { acc with
      keepCompact := acc.keepCompact ++ [{ r with keepFull := false }],
      usedTokens := acc.usedTokens + cfg.tokensPerCompactResult }
  else
    { acc with clear := acc.clear ++ [{ r with keepFull := false }] }

/-- `compactWithBudget`. -/
def compactWithBudget (cfg : CompactorConfig) (sorted : List ScoredResult)
    (budget : Nat) : CompactionPlan :=
  let acc := sorted.foldl (budgetStep cfg budget) ⟨[], [], [], 0⟩
  { keepFull := acc.keepFull, keepCompact := acc.keepCompact,
    clear := acc.clear,
    estimatedTokensSaved :=
      (sorted.length * cfg.tokensPerFullResult : Int) - acc.usedTokens }

/-- The `ScoreContext` that `compact` passes to `scoreResult` for the
entry at position `ie.1` (`scored = results.map((entry, index) => ...)`,
with the cited map, discovered services, active hypotheses and current
iteration drawn from the investigation state). -/
def compactScoreCtx (results : List ToolResultEntry) (ctx : CompactContext)
    (ie : Nat × ToolResultEntry) : ScoreContext :=
  { query := ctx.query,
    investigationState := ctx.investigationState,
    activeHypotheses := some
      ((ctx.investigationState.map InvestigationState.activeHypotheses).getD []),
    servicesUnderInvestigation := some
      ((ctx.investigationState.map InvestigationState.servicesDiscovered).getD []),
    resultIdToCited := some
      (match ctx.investigationState with
       | some s => buildCitedMap s
       | Option.none => []),
    compact := compactGet ctx.compactResults ie.2,
    currentIteration :=
      (ctx.investigationState.map InvestigationState.currentIteration).getD 0,
    totalResults := results.length,
    resultIndex := ie.1 }

/-- The scored list built inside `compact`. -/
def compactScored (cfg : CompactorConfig) (results : List ToolResultEntry)
    (ctx : CompactContext) : List ScoredResult :=
  results.enum.map (fun ie =>
    scoreResult cfg ie.2 (compactScoreCtx results ctx ie))

/-- `ContextCompactor.compact`: builds the cited map, scores every
result (index order = recency order), sorts descending by score
(stable), and allocates count-based — or budget-based when a non-zero
`tokenBudget` is supplied. -/
def ContextCompactor.compact (cfg : CompactorConfig)
    (results : List ToolResultEntry) (ctx : CompactContext) :
    CompactionPlan :=
  let scored := compactScored cfg results ctx
  let sorted := sortByScoreDesc scored
  if (match ctx.tokenBudget with
      | some b => b != 0
      | Option.none => false) then
    compactWithBudget cfg sorted (ctx.tokenBudget.getD 0)
  else
    let acc := sorted.foldl (allocStep cfg) ⟨[], [], []⟩
    { keepFull := acc.keepFull, keepCompact := acc.keepCompact,
      clear := acc.clear,
      estimatedTokensSaved :=
        (scored.length * cfg.tokensPerFullResult : Int) -
        (acc.keepFull.length * cfg.tokensPerFullResult : Int) -
        (acc.keepCompact.length * cfg.tokensPerCompactResult : Int) }

end CompactorModel

section JsMapLemmas

theorem jsSet_cons_ne {α : Type} (p : String × α) (rest : List (String × α))
    (k : String) (v : α) (hp : ¬ p.1 = k) :
    jsSet (p :: rest) k v = p :: jsSet rest k v := by
  by_cases hr : rest.any (fun q => q.1 = k) <;>
    simp [jsSet, hp, hr]

theorem jsSet_cons_eq {α : Type} (p : String × α) (rest : List (String × α))
    (k : String) (v : α) (hp : p.1 = k) :
    jsSet (p :: rest) k v =
      (k, v) :: rest.map (fun q => if q.1 = k then (k, v) else q) := by
  simp [jsSet, hp]

theorem jsGet_mapReplace_ne {α : Type} (rest : List (String × α))
    (k k' : String) (v : α) (h : ¬ k' = k) :
    jsGet (rest.map (fun q => if q.1 = k then (k, v) else q)) k' =
      jsGet rest k' := by
  induction rest with
  | nil => rfl
  | cons q rest ih =>
    by_cases hq : q.1 = k
    · have hq' : ¬ q.1 = k' := by rw [hq]; exact fun hc => h hc.symm
      simp only [List.map_cons, if_pos hq, jsGet, List.find?]
      have h1 : ¬ ((k, v).1 = k') := fun hc => h hc.symm
      simp only [h1, hq', decide_False, Bool.false_eq_true, if_false]
      simpa [jsGet] using ih
    · simp only [List.map_cons, if_neg hq, jsGet, List.find?]
      by_cases hq' : q.1 = k'
      · simp [hq']
      · simp only [hq', decide_False, Bool.false_eq_true, if_false]
        simpa [jsGet] using ih

theorem jsGet_jsSet_self {α : Type} (m : List (String × α)) (k : String)
    (v : α) : jsGet (jsSet m k v) k = some v := by
  induction m with
  | nil => simp [jsSet, jsGet]
  | cons p rest ih =>
    by_cases hp : p.1 = k
    · rw [jsSet_cons_eq p rest k v hp]
      simp [jsGet]
    · rw [jsSet_cons_ne p rest k v hp]
      simpa [jsGet, List.find?, hp] using ih

theorem jsGet_jsSet_ne {α : Type} (m : List (String × α)) (k k' : String)
    (v : α) (h : ¬ k' = k) : jsGet (jsSet m k v) k' = jsGet m k' := by
  induction m with
  | nil =>
    have h1 : ¬ ((k, v).1 = k') := fun hc => h hc.symm
    simp [jsSet, jsGet, List.find?, h1]
  | cons p rest ih =>
    by_cases hp : p.1 = k
    · rw [jsSet_cons_eq p rest k v hp]
      have h1 : ¬ ((k, v).1 = k') := fun hc => h hc.symm
      have hp' : ¬ p.1 = k' := by rw [hp]; exact fun hc => h hc.symm
      simp only [jsGet, List.find?, h1, hp', decide_False,
        Bool.false_eq_true, if_false]
      simpa [jsGet] using jsGet_mapReplace_ne rest k k' v h
    · rw [jsSet_cons_ne p rest k v hp]
      by_cases hp' : p.1 = k'
      · simp [jsGet, List.find?, hp']
      · simpa [jsGet, List.find?, hp'] using ih

/-- Setting any key to `true` preserves a `some true` lookup. -/
theorem jsGet_jsSet_true_keeps (m : List (String × Bool)) (k rid : String)
    (h : jsGet m rid = some true) :
    jsGet (jsSet m k true) rid = some true := by
  by_cases hk : rid = k
  · subst hk; exact jsGet_jsSet_self m rid true
  · rw [jsGet_jsSet_ne m k rid true hk]; exact h

end JsMapLemmas

section CitedMapLemmas

theorem foldIds_sets (ids : List String) (rid : String)
    (m : List (String × Bool)) :
    (rid ∈ ids ∨ jsGet m rid = some true) →
    jsGet (ids.foldl (fun m r => jsSet m r true) m) rid = some true := by
  induction ids generalizing m with
  | nil =>
    intro h
    rcases h with h | h
    · cases h
    · exact h
  | cons i rest ih =>
    intro h
    rw [List.foldl_cons]
    apply ih
    rcases h with h | h
    · rcases List.mem_cons.mp h with heq | hmem
      · subst heq
        exact Or.inr (jsGet_jsSet_self m rid true)
      · exact Or.inl hmem
    · exact Or.inr (jsGet_jsSet_true_keeps m i rid h)

theorem foldNotes_sets (notes : List InvestigationNote) (rid : String)
    (m : List (String × Bool)) :
    ((∃ note ∈ notes, rid ∈ note.sourceResultIds) ∨
      jsGet m rid = some true) →
    jsGet (notes.foldl (fun m note =>
      note.sourceResultIds.foldl (fun m r => jsSet m r true) m) m) rid =
      some true := by
  induction notes generalizing m with
  | nil =>
    intro h
    rcases h with ⟨note, hmem, _⟩ | h
    · cases hmem
    · exact h
  | cons note rest ih =>
    intro h
    rw [List.foldl_cons]
    apply ih
    rcases h with ⟨n, hmem, hin⟩ | h
    · rcases List.mem_cons.mp hmem with heq | hmem'
      · subst heq
        exact Or.inr (foldIds_sets n.sourceResultIds rid m (Or.inl hin))
      · exact Or.inl ⟨n, hmem', hin⟩
    · exact Or.inr (foldIds_sets note.sourceResultIds rid m (Or.inr h))

/-- Any result id referenced by any note's `sourceResultIds` is mapped
to `true` in the helper map `compact` builds. -/
theorem buildCitedMap_cited (st : InvestigationState) (rid : String)
    (h : ∃ note ∈ st.notes, rid ∈ note.sourceResultIds) :
    jsGet (buildCitedMap st) rid = some true :=
  foldNotes_sets st.notes rid [] (Or.inl h)

end CitedMapLemmas

section CompactorMemLemmas

theorem mem_insertByScore {r q : ScoredResult} {l : List ScoredResult} :
    q ∈ insertByScore r l ↔ q = r ∨ q ∈ l := by
  induction l with
  | nil => simp [insertByScore]
  | cons p rest ih =>
    by_cases h : p.score ≤ r.score
    · simp [insertByScore, h]
    · simp only [insertByScore, h, if_false, List.mem_cons, ih]
      tauto

theorem mem_sortByScoreDesc {q : ScoredResult} {l : List ScoredResult} :
    q ∈ sortByScoreDesc l ↔ q ∈ l := by
  induction l with
  | nil => simp [sortByScoreDesc]
  | cons r rest ih =>
    simp only [sortByScoreDesc, mem_insertByScore, List.mem_cons, ih]

theorem allocStep_mem (cfg : CompactorConfig) (acc : PlanAcc)
    (r x : ScoredResult)
    (hx : x ∈ (allocStep cfg acc r).keepFull ∨
      x ∈ (allocStep cfg acc r).keepCompact ∨
      x ∈ (allocStep cfg acc r).clear) :
    (x ∈ acc.keepFull ∨ x ∈ acc.keepCompact ∨ x ∈ acc.clear) ∨
    x = { r with keepFull := true } ∨ x = { r with keepFull := false } := by
  unfold allocStep at hx
  split at hx
  · simp only [List.mem_append, List.mem_singleton] at hx
    tauto
  · split at hx <;>
    · simp only [List.mem_append, List.mem_singleton] at hx
      tauto

theorem foldl_alloc_mem (cfg : CompactorConfig)
    (sorted : List ScoredResult) :
    ∀ (acc : PlanAcc) (x : ScoredResult),
      (x ∈ (sorted.foldl (allocStep cfg) acc).keepFull ∨
       x ∈ (sorted.foldl (allocStep cfg) acc).keepCompact ∨
       x ∈ (sorted.foldl (allocStep cfg) acc).clear) →
      (x ∈ acc.keepFull ∨ x ∈ acc.keepCompact ∨ x ∈ acc.clear) ∨
      ∃ r ∈ sorted,
        x = { r with keepFull := true } ∨ x = { r with keepFull := false } := by
  induction sorted with
  | nil => intro acc x hx; exact Or.inl hx
  | cons r rest ih =>
    intro acc x hx
    rcases ih (allocStep cfg acc r) x hx with hacc | ⟨q, hq, hflag⟩
    · rcases allocStep_mem cfg acc r x hacc with hacc' | hflag
      · exact Or.inl hacc'
      · exact Or.inr ⟨r, List.mem_cons_self _ _, hflag⟩
    · exact Or.inr ⟨q, List.mem_cons_of_mem _ hq, hflag⟩

theorem budgetStep_mem (cfg : CompactorConfig) (budget : Nat)
    (acc : BudgetAcc) (r x : ScoredResult)
    (hx : x ∈ (budgetStep cfg budget acc r).keepFull ∨
      x ∈ (budgetStep cfg budget acc r).keepCompact ∨
      x ∈ (budgetStep cfg budget acc r).clear) :
    (x ∈ acc.keepFull ∨ x ∈ acc.keepCompact ∨ x ∈ acc.clear) ∨
    x = { r with keepFull := true } ∨ x = { r with keepFull := false } := by
  unfold budgetStep at hx
  split at hx
  · simp only [List.mem_append, List.mem_singleton] at hx
    tauto
  · split at hx
    · simp only [List.mem_append, List.mem_singleton] at hx
      tauto
    · split at hx <;>
      · simp only [List.mem_append, List.mem_singleton] at hx
        tauto

theorem foldl_budget_mem (cfg : CompactorConfig) (budget : Nat)
    (sorted : List ScoredResult) :
    ∀ (acc : BudgetAcc) (x : ScoredResult),
      (x ∈ (sorted.foldl (budgetStep cfg budget) acc).keepFull ∨
       x ∈ (sorted.foldl (budgetStep cfg budget) acc).keepCompact ∨
       x ∈ (sorted.foldl (budgetStep cfg budget) acc).clear) →
      (x ∈ acc.keepFull ∨ x ∈ acc.keepCompact ∨ x ∈ acc.clear) ∨
      ∃ r ∈ sorted,
        x = { r with keepFull := true } ∨ x = { r with keepFull := false } := by
  induction sorted with
  | nil => intro acc x hx; exact Or.inl hx
  | cons r rest ih =>
    intro acc x hx
    rcases ih (budgetStep cfg budget acc r) x hx with hacc | ⟨q, hq, hflag⟩
    · rcases budgetStep_mem cfg budget acc r x hacc with hacc' | hflag
      · exact Or.inl hacc'
      · exact Or.inr ⟨r, List.mem_cons_self _ _, hflag⟩
    · exact Or.inr ⟨q, List.mem_cons_of_mem _ hq, hflag⟩

/-- Every scored result appearing in any tier of a compaction plan is,
up to its `keepFull` flag, an element of the scored list `compact`
builds — so its components and compact summary are those computed by
`scoreResult` at that entry. -/
theorem compact_mem_scored (cfg : CompactorConfig)
    (results : List ToolResultEntry) (ctx : CompactContext)
    (x : ScoredResult)
    (hx : x ∈ (ContextCompactor.compact cfg results ctx).keepFull ∨
      x ∈ (ContextCompactor.compact cfg results ctx).keepCompact ∨
      x ∈ (ContextCompactor.compact cfg results ctx).clear) :
    ∃ ie ∈ results.enum,
      x.components =
        (scoreResult cfg ie.2 (compactScoreCtx results ctx ie)).components ∧
      x.compact = compactGet ctx.compactResults ie.2 := by
  have hsorted : ∃ q,
      q ∈ sortByScoreDesc (compactScored cfg results ctx) ∧
      (x = { q with keepFull := true } ∨
       x = { q with keepFull := false }) := by
    simp only [ContextCompactor.compact] at hx
    split at hx
    · simp only [compactWithBudget] at hx
      rcases foldl_budget_mem cfg _ _ ⟨[], [], [], 0⟩ x hx with
        hacc | ⟨q, hq, hflag⟩
      · simp at hacc
      · exact ⟨q, hq, hflag⟩
    · rcases foldl_alloc_mem cfg _ ⟨[], [], []⟩ x hx with
        hacc | ⟨q, hq, hflag⟩
      · simp at hacc
      · exact ⟨q, hq, hflag⟩
  rcases hsorted with ⟨q, hq, hflag⟩
  rw [mem_sortByScoreDesc] at hq
  unfold compactScored at hq
  rcases List.mem_map.mp hq with ⟨ie, hie, hq'⟩
  refine ⟨ie, hie, ?_, ?_⟩ <;>
    rcases hflag with hflag | hflag <;>
    subst hflag <;> rw [← hq'] <;> rfl

end CompactorMemLemmas

section CompactorClaims

/-- A tool result whose compact summary has result id `r1`, cited by
the investigation note below. -/
def exEntryC3a : ToolResultEntry :=
  { tool := "aws", args := [("a", "b")], result := "ok", durationMs := 1,
    timestamp := "t0" }

/-- A later (more recent) uncited tool result. -/
def exEntryC3b : ToolResultEntry :=
  { tool := "aws", args := [("c", "d")], result := "fine", durationMs := 1,
    timestamp := "t1" }

/-- The compact summary of `exEntryC3a`, carrying result id `r1`. -/
def exCompactC3 : CompactToolResult :=
  { resultId := "r1", summary := "s", services := [],
    healthStatus := .ok, hasErrors := false }

/-- An investigation state with one note citing `r1`. -/
def exStateC3 : InvestigationState :=
  { query := "q", sessionId := "s",
    notes := [{ id := "n1", type := .symptom, content := "latency spike",
                confidence := .high, sourceResultIds := ["r1"],
                timestamp := 1, iteration := 0 }] }

/-- The compaction context of the C3 counterexample. -/
def exCtxC3 : CompactContext :=
  { query := "zzzz", investigationState := some exStateC3,
    compactResults := some [(exEntryC3a, exCompactC3)] }

/-- The plan `compact` produces with the default configuration on the
two entries above. -/
def exPlanC3 : CompactionPlan :=
  ContextCompactor.compact DEFAULT_CONFIG [exEntryC3a, exEntryC3b] exCtxC3

/-- C3, counterexample: `exEntryC3a` is cited — the note's
`sourceResultIds` contains its summary's result id `r1` — yet the
compaction plan assigns it to the cleared tier: citation contributes
only `0.15` to its weighted score (total `0.17`, below
`minScoreToKeep = 0.2`), and no rule keeps cited results at `compact`
or above. -/
theorem C3_counterexample :
    exPlanC3.clear.map ScoredResult.entry = [exEntryC3a] ∧
    exStateC3.notes.map InvestigationNote.sourceResultIds = [["r1"]] ∧
    compactGet exCtxC3.compactResults exEntryC3a = some exCompactC3 ∧
    exCompactC3.resultId = "r1" ∧
    exPlanC3.clear.map ScoredResult.score = [17/100] := by
  refine ⟨by with_unfolding_all decide, by decide, by decide, by decide,
    by with_unfolding_all decide⟩

/-- C3 (amended): `compact` does not keep cited results at the
`compact` tier; citation only forces the `citedInNotes` score component
to `1.0` (weight `0.15` by default) for every result of the plan —
whatever tier it lands in — whose compact summary's result id is
non-empty (an empty id is falsy and scores `0`) and appears in some
note's `sourceResultIds`. A cited result whose total score falls below
`minScoreToKeep` (or that overflows the tier capacities) is still
cleared, as the counterexample shows. -/
theorem C3_cited_component_is_one (cfg : CompactorConfig)
    (results : List ToolResultEntry) (ctx : CompactContext)
    (st : InvestigationState) (x : ScoredResult) (c : CompactToolResult)
    (hst : ctx.investigationState = some st)
    (hx : x ∈ (ContextCompactor.compact cfg results ctx).keepFull ∨
      x ∈ (ContextCompactor.compact cfg results ctx).keepCompact ∨
      x ∈ (ContextCompactor.compact cfg results ctx).clear)
    (hc : x.compact = some c)
    (hne : c.resultId ≠ "")
    (hcited : ∃ note ∈ st.notes, c.resultId ∈ note.sourceResultIds) :
    x.components.citedInNotes = 1 := by
  rcases compact_mem_scored cfg results ctx x hx with ⟨ie, hie, hcomp, hcompact⟩
  rw [hcomp]
  show scoreCitedInNotes
    ((compactScoreCtx results ctx ie).compact.map CompactToolResult.resultId)
    (compactScoreCtx results ctx ie).resultIdToCited = 1
  have hcompact' : (compactScoreCtx results ctx ie).compact = some c := by
    rw [show (compactScoreCtx results ctx ie).compact =
      compactGet ctx.compactResults ie.2 from rfl, ← hcompact, hc]
  rw [hcompact']
  show scoreCitedInNotes (some c.resultId)
    (some (match ctx.investigationState with
           | some s => buildCitedMap s
           | Option.none => [])) = 1
  rw [hst]
  show (if c.resultId = "" then (0 : Rat)
    else if (jsGet (buildCitedMap st) c.resultId).getD false then 1
    else 0) = 1
  rw [if_neg hne, buildCitedMap_cited st c.resultId hcited]
  rfl

/-- C3, witness: the amended theorem applied at the concrete plan of
the counterexample — the cleared, cited result has `citedInNotes`
component `1`. -/
theorem C3_cited_component_witness :
    ({ entry := exEntryC3a, score := 17/100,
       components := { recency := 1/10, queryRelevance := 0,
                       errorSignals := 0, hypothesisRelevance := 0,
                       serviceRelevance := 0, citedInNotes := 1 },
       compact := some exCompactC3,
       keepFull := false } : ScoredResult).components.citedInNotes = 1 :=
  C3_cited_component_is_one DEFAULT_CONFIG [exEntryC3a, exEntryC3b]
    exCtxC3 exStateC3 _ exCompactC3 rfl
    (Or.inr (Or.inr (by with_unfolding_all decide))) (by decide) (by decide)
    (by decide)

end CompactorClaims

section ScratchpadModel

/-! ## Scratchpad

Embedding of `scratchpad.ts`: per-tool usage tracking with graceful
limits (`canCallTool` / `trackToolUsage`), tiered tool results with
generated result ids (`appendToolResult`), the compaction-plan
application, and `getResultById`. Clock values (`Date.now()`) are
explicit `now : Nat` parameters; the ISO timestamp stored on an entry
is modelled as `toString now`. -/

/-- Per-tool usage statistics. -/
structure ToolUsageStats where
  callCount : Nat
  queries : List String
deriving DecidableEq, Repr

inductive StorageTier
  | full | compact | cleared
deriving DecidableEq, Repr

/-- A stored tool result with tier metadata (`TieredToolResult`). -/
structure TieredToolResult where
  tool : String
  args : List (String × String)
  result : String
  durationMs : Nat
  timestamp : String
  resultId : String
  tier : StorageTier
  compact : Option CompactToolResult := Option.none
  importanceScore : Option Rat := Option.none
deriving DecidableEq, Repr

/-- The result of `canCallTool`. -/
structure ToolLimitResult where
  allowed : Bool
  warning : Option String := Option.none
deriving DecidableEq, Repr

/-- The caller-supplied part of `appendToolResult`'s entry
(`Omit<ToolResultEntry, 'type' | 'timestamp'>`). -/
structure ToolCallRecord where
  tool : String
  args : List (String × String)
  result : String
  durationMs : Nat
deriving DecidableEq, Repr

/-- The scratchpad state. `entries` keeps the appended tool-result
entries (the other entry types of the on-disk log play no role in the
claims under verification). -/
structure Scratchpad where
  entries : List TieredToolResult := []
  toolUsage : List (String × ToolUsageStats) := []
  tieredResults : List (String × TieredToolResult) := []
  resultIdCounter : Nat := 0
  archivedResults : List (String × ToolResultEntry) := []
  toolLimits : List (String × Nat) := []
deriving DecidableEq, Repr

/-- A fresh scratchpad with the given per-tool limits. -/
def mkScratchpad (limits : List (String × Nat)) : Scratchpad :=
  { toolLimits := limits }

/-- JavaScript `a || b` on an optional string, where the empty string
is falsy. -/
def jsOrStr (a : Option String) (b : String) : String :=
  match a with
  | some s => if s = "" then b else s
  | Option.none => b

/-- The query-like argument extracted by `trackToolUsage`:
`args.query || args.search || args.filter || JSON.stringify(args)`. -/
def queryArgOf (args : List (String × String)) : String :=
  jsOrStr (jsGet args "query")
    (jsOrStr (jsGet args "search")
      (jsOrStr (jsGet args "filter") (jsonStringify args)))

/-- `trackToolUsage`: bumps the call count and records the query-like
argument. -/
def trackToolUsage (sp : Scratchpad) (tool : String)
    (args : List (String × String)) : Scratchpad :=
  let stats := jsGetD sp.toolUsage tool ⟨0, []⟩
  let stats := { stats with
    callCount := stats.callCount + 1,
    queries := stats.queries ++ [queryArgOf args] }
  { sp with toolUsage := jsSet sp.toolUsage tool stats }

/-- Jaccard similarity of the lowercase whitespace-split word sets of
two queries. -/
def jaccard (query prev : String) : Rat :=
  let queryWords := jsSetOf (jsSplitWs (jsLower query))
  let prevWords := jsSetOf (jsSplitWs (jsLower prev))
  let inter := queryWords.filter (fun w => prevWords.contains w)
  let union := jsSetOf (queryWords ++ prevWords)
  (inter.length : Rat) / (union.length : Rat)

/-- `maxSimilarity`: the maximum Jaccard similarity of the query
against the previously recorded queries (0 when there are none). -/
def maxSimilarity (query : String) (previous : List String) : Rat :=
  previous.foldl (fun m prev => max m (jaccard query prev)) 0

/-- JavaScript `Math.round` on a nonnegative rational. -/
def jsRound (q : Rat) : Int := (q + 1/2).floor

/-- `canCallTool`: always allowed; warns (in this order of precedence)
when the call count has reached the limit, when the supplied query's
Jaccard similarity against a prior query exceeds 0.8 strictly, or when
the call count is exactly `limit - 1`. The limit falls back to 5 when
unconfigured (or configured as the falsy 0). -/
def canCallTool (sp : Scratchpad) (toolName : String)
    (query : Option String) : ToolLimitResult :=
  let limit :=
    match jsGet sp.toolLimits toolName with
    | some n => if n = 0 then 5 else n
    | Option.none => 5
  match jsGet sp.toolUsage toolName with
  | Option.none => { allowed := true }
  | some stats =>
    if limit ≤ stats.callCount then
      { allowed := true,
        warning := some ("Tool \x22" ++ toolName ++
          "\x22 has been called " ++ toString stats.callCount ++
          " times (suggested limit: " ++ toString limit ++
          "). Consider if additional calls are necessary.") }
    else
      let simWarning :=
        match query with
        | some q =>
          if q = "" then Option.none
          else if 0 < stats.queries.length then
            let similarity := maxSimilarity q stats.queries
            if (8 : Rat)/10 < similarity then
              some ("Query appears similar to a previous \x22" ++
                toolName ++ "\x22 call (" ++
                toString (jsRound (similarity * 100)) ++
                "% similarity). This might be a retry loop.")
            else Option.none
          else Option.none
        | Option.none => Option.none
      match simWarning with
      | some w => { allowed := true, warning := some w }
      | Option.none =>
        if stats.callCount = limit - 1 then
          { allowed := true,
            warning := some ("Approaching suggested limit for \x22" ++
              toolName ++ "\x22 (" ++ toString (stats.callCount + 1) ++
              "/" ++ toString limit ++ " calls).") }
        else { allowed := true }

/-- The base-36 digit characters used by JavaScript `toString(36)`. -/
def base36Digit (n : Nat) : Char :=
  Char.ofNat (if n < 10 then 48 + n else 87 + n)

/-- Digits of `n` in base 36 (fuelled, most significant first). -/
def toBase36Aux : Nat → Nat → List Char
  | 0, _ => []
  | fuel + 1, n =>
    if n < 36 then [base36Digit n]
    else toBase36Aux fuel (n / 36) ++ [base36Digit (n % 36)]

/-- JavaScript `n.toString(36)` for a natural number. -/
def toBase36 (n : Nat) : String := String.mk (toBase36Aux (n + 1) n)

/-- JavaScript `padStart(2, '0')`. -/
def padStart2 (s : String) : String :=
  if 2 ≤ s.toList.length then s
  else String.mk (List.replicate (2 - s.toList.length) (Char.ofNat 48)) ++ s

/-- `generateResultId`: bump the counter and build
`{tool prefix (3 chars, lowercased)}-{last 4 base-36 chars of the
clock}{counter in base 36, padded to 2}`. -/
def generateResultId (sp : Scratchpad) (toolName : String) (now : Nat) :
    String × Scratchpad :=
  let counter := sp.resultIdCounter + 1
  let id := jsLower (strTake toolName 3) ++ "-" ++
    strTakeRight (toBase36 now) 4 ++ padStart2 (toBase36 counter)
  (id, { sp with resultIdCounter := counter })

/-- `appendToolResult`: assigns a result id, stores the tiered entry
(tier defaults to `full`), and tracks tool usage. -/
def appendToolResult (sp : Scratchpad) (entry : ToolCallRecord)
    (compact : Option CompactToolResult) (tier : Option StorageTier)
    (now : Nat) : String × Scratchpad :=
  let (resultId, sp₁) := generateResultId sp entry.tool now
  let fullEntry : TieredToolResult :=
    { tool := entry.tool, args := entry.args, result := entry.result,
      durationMs := entry.durationMs, timestamp := toString now,
      resultId := resultId, tier := tier.getD .full, compact := compact }
  let sp₂ := { sp₁ with
    entries := sp₁.entries ++ [fullEntry],
    tieredResults := jsSet sp₁.tieredResults resultId fullEntry }
  (resultId, trackToolUsage sp₂ entry.tool entry.args)

/-- The keepFull loop body of `applyCompactionPlan` (the guard
`if (resultId && this.tieredResults.has(resultId))` skips entries with
no or an empty result id). -/
def applyFull (sp : Scratchpad) (scored : ScoredResult) : Scratchpad :=
  match scored.entry.resultId with
  | Option.none => sp
  | some rid =>
    if rid = "" then sp
    else
      match jsGet sp.tieredResults rid with
      | Option.none => sp
      | some r =>
        let r' := { r with tier := StorageTier.full,
                           importanceScore := some scored.score }
        { sp with tieredResults := jsSet sp.tieredResults rid r' }

/-- The keepCompact loop body of `applyCompactionPlan` (also updates
the stored compact summary). -/
def applyCompact (sp : Scratchpad) (scored : ScoredResult) : Scratchpad :=
  match scored.entry.resultId with
  | Option.none => sp
  | some rid =>
    if rid = "" then sp
    else
      match jsGet sp.tieredResults rid with
      | Option.none => sp
      | some r =>
        let r' := { r with tier := StorageTier.compact,
                           compact := scored.compact,
                           importanceScore := some scored.score }
        { sp with tieredResults := jsSet sp.tieredResults rid r' }

/-- The clear loop body of `applyCompactionPlan`: marks the tier
cleared and archives the full result for later retrieval. -/
def applyClear (sp : Scratchpad) (scored : ScoredResult) : Scratchpad :=
  match scored.entry.resultId with
  | Option.none => sp
  | some rid =>
    if rid = "" then sp
    else
      match jsGet sp.tieredResults rid with
      | Option.none => sp
      | some r =>
        let r' := { r with tier := StorageTier.cleared,
                           importanceScore := some scored.score }
        let archived : ToolResultEntry :=
          { tool := r.tool, args := r.args, result := r.result,
            durationMs := r.durationMs, timestamp := r.timestamp }
        { sp with
          tieredResults := jsSet sp.tieredResults rid r',
          archivedResults := jsSet sp.archivedResults rid archived }

/-- `applyCompactionPlan`: applies the three loops and reports the
counts. -/
def applyCompactionPlan (sp : Scratchpad) (plan : CompactionPlan) :
    Scratchpad × (Nat × Nat × Nat) :=
  let sp₁ := plan.keepFull.foldl applyFull sp
  let sp₂ := plan.keepCompact.foldl applyCompact sp₁
  let sp₃ := plan.clear.foldl applyClear sp₂
  (sp₃, (plan.keepFull.length, plan.keepCompact.length, plan.clear.length))

/-- `getResultById`: active tiered results first, then the archive. -/
def getResultById (sp : Scratchpad) (resultId : String) :
    Option ToolResultEntry :=
  match jsGet sp.tieredResults resultId with
  | some t => some { tool := t.tool, args := t.args, result := t.result,
                     durationMs := t.durationMs, timestamp := t.timestamp }
  | Option.none =>
    match jsGet sp.archivedResults resultId with
    | some a => some a
    | Option.none => Option.none

/-- The operations of an investigation relevant to result retrieval. -/
inductive ScratchOp
  | append (entry : ToolCallRecord) (compact : Option CompactToolResult)
      (tier : Option StorageTier) (now : Nat)
  | applyPlan (plan : CompactionPlan)

/-- Run one operation. -/
def runOp (sp : Scratchpad) : ScratchOp → Scratchpad
  | .append e c t now => (appendToolResult sp e c t now).2
  | .applyPlan plan => (applyCompactionPlan sp plan).1

/-- Run a sequence of operations. -/
def runOps (sp : Scratchpad) (ops : List ScratchOp) : Scratchpad :=
  ops.foldl runOp sp

/-- The result ids assigned by the appends of an operation sequence. -/
def assignedIds (sp : Scratchpad) : List ScratchOp → List String
  | [] => []
  | op :: rest =>
    match op with
    | .append e c t now =>
      (appendToolResult sp e c t now).1 :: assignedIds (runOp sp op) rest
    | .applyPlan _ => assignedIds (runOp sp op) rest

end ScratchpadModel

section ScratchpadLemmas

theorem jsGet_isSome_iff {α : Type} (m : List (String × α)) (k : String) :
    (jsGet m k).isSome = true ↔ jsHas m k = true := by
  induction m with
  | nil => simp [jsGet, jsHas]
  | cons p rest ih =>
    by_cases hp : p.1 = k
    · simp [jsGet, jsHas, List.find?, hp]
    · have h1 : jsGet (p :: rest) k = jsGet rest k := by
        simp [jsGet, List.find?, hp]
      have h2 : jsHas (p :: rest) k = jsHas rest k := by
        simp [jsHas, hp]
      rw [h1, h2]
      exact ih

theorem jsHas_jsSet {α : Type} (m : List (String × α)) (k id : String)
    (v : α) :
    jsHas (jsSet m k v) id = true ↔ id = k ∨ jsHas m id = true := by
  rw [← jsGet_isSome_iff, ← jsGet_isSome_iff]
  by_cases hid : id = k
  · subst hid
    simp [jsGet_jsSet_self]
  · rw [jsGet_jsSet_ne m k id v hid]
    simp [hid]

/-- A result id is retrievable exactly when it is a key of the tiered
results or of the archive. -/
def keyIn (sp : Scratchpad) (id : String) : Prop :=
  jsHas sp.tieredResults id = true ∨ jsHas sp.archivedResults id = true

theorem getResultById_isSome_iff (sp : Scratchpad) (id : String) :
    (getResultById sp id).isSome = true ↔ keyIn sp id := by
  unfold getResultById keyIn
  rw [← jsGet_isSome_iff, ← jsGet_isSome_iff]
  cases h1 : jsGet sp.tieredResults id <;>
    cases h2 : jsGet sp.archivedResults id <;> simp

theorem applyFull_getResultById (sp : Scratchpad)
    (scored : ScoredResult) (id : String) :
    getResultById (applyFull sp scored) id = getResultById sp id := by
  unfold applyFull
  cases hrid : scored.entry.resultId with
  | none => rfl
  | some rid =>
    by_cases hempty : rid = ""
    · simp [hempty]
    · simp only [hempty, if_false]
      cases hr : jsGet sp.tieredResults rid with
      | none => rfl
      | some r =>
        simp only [getResultById]
        by_cases hid : id = rid
        · subst hid
          rw [jsGet_jsSet_self, hr]
        · rw [jsGet_jsSet_ne _ _ _ _ hid]

theorem applyCompact_getResultById (sp : Scratchpad)
    (scored : ScoredResult) (id : String) :
    getResultById (applyCompact sp scored) id = getResultById sp id := by
  unfold applyCompact
  cases hrid : scored.entry.resultId with
  | none => rfl
  | some rid =>
    by_cases hempty : rid = ""
    · simp [hempty]
    · simp only [hempty, if_false]
      cases hr : jsGet sp.tieredResults rid with
      | none => rfl
      | some r =>
        simp only [getResultById]
        by_cases hid : id = rid
        · subst hid
          rw [jsGet_jsSet_self, hr]
        · rw [jsGet_jsSet_ne _ _ _ _ hid]

theorem applyClear_getResultById (sp : Scratchpad) (scored : ScoredResult)
    (id : String) :
    getResultById (applyClear sp scored) id = getResultById sp id := by
  unfold applyClear
  cases hrid : scored.entry.resultId with
  | none => rfl
  | some rid =>
    by_cases hempty : rid = ""
    · simp [hempty]
    · simp only [hempty, if_false]
      cases hr : jsGet sp.tieredResults rid with
      | none => rfl
      | some r =>
        simp only [getResultById]
        by_cases hid : id = rid
        · subst hid
          rw [jsGet_jsSet_self, hr]
        · rw [jsGet_jsSet_ne _ _ _ _ hid, jsGet_jsSet_ne _ _ _ _ hid]

theorem foldl_getResultById (f : Scratchpad → ScoredResult → Scratchpad)
    (hf : ∀ sp s id, getResultById (f sp s) id = getResultById sp id)
    (l : List ScoredResult) :
    ∀ (sp : Scratchpad) (id : String),
      getResultById (l.foldl f sp) id = getResultById sp id := by
  induction l with
  | nil => intro sp id; rfl
  | cons s rest ih =>
    intro sp id
    rw [List.foldl_cons, ih, hf]

/-- Applying a compaction plan never changes what `getResultById`
returns, for any id. -/
theorem applyCompactionPlan_getResultById (sp : Scratchpad)
    (plan : CompactionPlan) (id : String) :
    getResultById (applyCompactionPlan sp plan).1 id =
      getResultById sp id := by
  unfold applyCompactionPlan
  rw [foldl_getResultById applyClear applyClear_getResultById,
    foldl_getResultById applyCompact applyCompact_getResultById,
    foldl_getResultById applyFull applyFull_getResultById]

theorem append_keyIn (sp : Scratchpad) (e : ToolCallRecord)
    (c : Option CompactToolResult) (t : Option StorageTier) (now : Nat)
    (id : String) :
    (keyIn (appendToolResult sp e c t now).2 id ↔
      id = (appendToolResult sp e c t now).1 ∨ keyIn sp id) := by
  unfold appendToolResult generateResultId trackToolUsage keyIn
  simp only
  rw [jsHas_jsSet]
  tauto

theorem runOps_keyIn (ops : List ScratchOp) :
    ∀ (sp : Scratchpad) (id : String),
      (keyIn (runOps sp ops) id ↔
        keyIn sp id ∨ id ∈ assignedIds sp ops) := by
  induction ops with
  | nil => intro sp id; simp [runOps, assignedIds]
  | cons op rest ih =>
    intro sp id
    have hstep : runOps sp (op :: rest) = runOps (runOp sp op) rest := rfl
    rw [hstep, ih]
    cases op with
    | append e c t now =>
      have h1 := append_keyIn sp e c t now id
      have h2 : assignedIds sp (ScratchOp.append e c t now :: rest) =
          (appendToolResult sp e c t now).1 ::
          assignedIds (runOp sp (ScratchOp.append e c t now)) rest := rfl
      rw [h2]
      simp only [List.mem_cons]
      have h3 : runOp sp (ScratchOp.append e c t now) =
          (appendToolResult sp e c t now).2 := rfl
      rw [h3] at *
      rw [h1]
      tauto
    | applyPlan plan =>
      have h1 : keyIn (runOp sp (ScratchOp.applyPlan plan)) id ↔
          keyIn sp id := by
        rw [← getResultById_isSome_iff, ← getResultById_isSome_iff]
        have : runOp sp (ScratchOp.applyPlan plan) =
            (applyCompactionPlan sp plan).1 := rfl
        rw [this, applyCompactionPlan_getResultById]
      have h2 : assignedIds sp (ScratchOp.applyPlan plan :: rest) =
          assignedIds (runOp sp (ScratchOp.applyPlan plan)) rest := rfl
      rw [h2, h1]

end ScratchpadLemmas

section ScratchpadClaims

/-- C7: every result id ever assigned by `appendToolResult` during a
run remains retrievable through `getResultById` — tier changes applied
by `applyCompactionPlan` never alter what `getResultById` returns —
and the lookup yields `null` exactly for ids that were never assigned. -/
theorem C7_getResultById_total (limits : List (String × Nat))
    (ops : List ScratchOp) (id : String) :
    ((getResultById (runOps (mkScratchpad limits) ops) id).isSome = true ↔
      id ∈ assignedIds (mkScratchpad limits) ops) ∧
    (∀ (sp : Scratchpad) (plan : CompactionPlan) (id' : String),
      getResultById (applyCompactionPlan sp plan).1 id' =
        getResultById sp id') := by
  constructor
  · rw [getResultById_isSome_iff, runOps_keyIn]
    have : ¬ keyIn (mkScratchpad limits) id := by
      unfold keyIn mkScratchpad jsHas
      simp
    tauto
  · exact applyCompactionPlan_getResultById

/-- The C5 scratchpad: tool `T` configured with soft cap 3. -/
def spT0 : Scratchpad := mkScratchpad [("T", 3)]

/-- Record one tracked call of tool `T` with the given query argument
(the bookkeeping `appendToolResult` performs via `trackToolUsage`). -/
def trkT (sp : Scratchpad) (q : String) : Scratchpad :=
  trackToolUsage sp "T" [("query", q)]

/-- State after one tracked call. -/
def spT1 : Scratchpad := trkT spT0 "alpha beta"

/-- State after two tracked calls. -/
def spT2 : Scratchpad := trkT spT1 "gamma delta"

/-- State after three tracked calls. -/
def spT3 : Scratchpad := trkT spT2 "epsilon zeta"

/-- State with one recorded query at Jaccard similarity exactly 0.8 to
the probe query below. -/
def spSimC5 : Scratchpad := trkT spT0 "a b c d e"

/-- State with one recorded query at Jaccard similarity 5/6 (> 0.8) to
the probe query below. -/
def spSim2C5 : Scratchpad := trkT spT0 "a b c d e f"

/-- C5, counterexample: with soft cap 3 and four invocations of
`canCallTool` for tool `T` (usage tracked between them, distinct
queries), the fourth invocation's warning is the over-cap message
`"... called 3 times (suggested limit: 3) ..."`, which does **not**
contain the substring `"3/3"` (it is the *third* invocation that warns
with `"3/3"`); moreover a query at Jaccard similarity exactly 0.8
(≥ 0.8, as claimed) to a prior query yields **no** warning below the
cap, because the code compares with strict `> 0.8`. -/
theorem C5_counterexample :
    (canCallTool spT3 "T" (some "eta theta")).allowed = true ∧
    (canCallTool spT3 "T" (some "eta theta")).warning.map
      (fun w => strContainsSub w "3/3") = some false ∧
    jaccard "a b c d" "a b c d e" = 4/5 ∧
    canCallTool spSimC5 "T" (some "a b c d") =
      { allowed := true, warning := Option.none } := by
  refine ⟨by with_unfolding_all decide, by with_unfolding_all decide,
    by with_unfolding_all decide, by with_unfolding_all decide⟩

/-- C5 (amended): `canCallTool` always returns `allowed = true`; with
soft cap 3 for tool `T` and tracked calls between invocations, the
**third** invocation (call count = cap − 1 = 2) warns with `"3/3"`,
the fourth warns that the tool has been called 3 times against
suggested limit 3, and a repeated query with Jaccard similarity
**strictly greater than** 0.8 to a prior query for the same tool
yields a similarity warning even below the cap. -/
theorem C5_softcap_warnings :
    (∀ (sp : Scratchpad) (tool : String) (q : Option String),
      (canCallTool sp tool q).allowed = true) ∧
    canCallTool spT0 "T" (some "alpha beta") = { allowed := true } ∧
    canCallTool spT1 "T" (some "gamma delta") = { allowed := true } ∧
    (canCallTool spT2 "T" (some "epsilon zeta")).warning.map
      (fun w => strContainsSub w "3/3") = some true ∧
    (canCallTool spT2 "T" (some "epsilon zeta")).warning =
      some "Approaching suggested limit for \x22T\x22 (3/3 calls)." ∧
    (canCallTool spT3 "T" (some "eta theta")).warning =
      some ("Tool \x22T\x22 has been called 3 times (suggested limit: " ++
        "3). Consider if additional calls are necessary.") ∧
    jaccard "a b c d e" "a b c d e f" = 5/6 ∧
    (canCallTool spSim2C5 "T" (some "a b c d e")).warning =
      some ("Query appears similar to a previous \x22T\x22 call " ++
        "(83% similarity). This might be a retry loop.") := by
  refine ⟨?_, by with_unfolding_all decide, by with_unfolding_all decide,
    by with_unfolding_all decide, by with_unfolding_all decide,
    by with_unfolding_all decide, by with_unfolding_all decide,
    by with_unfolding_all decide⟩
  intro sp tool q
  unfold canCallTool
  dsimp only
  repeat' split
  all_goals rfl

end ScratchpadClaims

section ApprovalModel

/-! ## Approval flow

Embedding of `approval.ts`: the lexical risk classification
`classifyRisk` and the cooldown tracker (`recentMutations`,
`checkCooldown`, `recordCriticalMutation`). Clock values are explicit
`Int` millisecond parameters. -/

inductive RiskLevel
  | low | medium | high | critical
deriving DecidableEq, Repr

/-- `classifyRisk(operation, resource)`: purely lexical cascade over
the lowercased operation and resource strings, in source order. -/
def classifyRisk (operation resource : String) : RiskLevel :=
  let op := jsLower operation
  let res := jsLower resource
  if strContainsSub op "delete" || strContainsSub op "terminate" ||
      strContainsSub op "destroy" then .critical
  else if strContainsSub op "truncate" || strContainsSub op "drop" then
    .critical
  else if (strContainsSub res "production" || strContainsSub res "prod") &&
      (strContainsSub op "update" || strContainsSub op "modify") then
    .high
  else if strContainsSub op "restart" || strContainsSub op "reboot" ||
      strContainsSub op "stop" then .high
  else if strContainsSub op "scale" && strContainsSub res "down" then .high
  else if strContainsSub op "deploy" || strContainsSub op "update-service" then
    .high
  else if strContainsSub op "update" || strContainsSub op "modify" ||
      strContainsSub op "change" then .medium
  else if strContainsSub op "scale" then .medium
  else .low

/-- The result record of `checkCooldown`. -/
structure CooldownResult where
  allowed : Bool
  remainingMs : Int
deriving DecidableEq, Repr

set_option linter.unusedVariables false in
/-- `checkCooldown(operation, cooldownMs)`: reads only the process-wide
`recentMutations.get('critical')` timestamp; the `operation` argument is
never consulted. -/
def checkCooldown (recentMutations : List (String × Int))
    (operation : String) (cooldownMs : Int) (now : Int) : CooldownResult :=
  match jsGet recentMutations "critical" with
  | Option.none => { allowed := true, remainingMs := 0 }
  | some lastMutation =>
    let elapsed := now - lastMutation
    if cooldownMs ≤ elapsed then { allowed := true, remainingMs := 0 }
    else { allowed := false, remainingMs := cooldownMs - elapsed }

/-- `recordCriticalMutation()`: stamps the single `'critical'` key with
the current time. -/
def recordCriticalMutation (recentMutations : List (String × Int))
    (now : Int) : List (String × Int) :=
  jsSet recentMutations "critical" now

end ApprovalModel

section ApprovalClaimDefs

/-- The risk classification as claim C8 words it: critical for
delete/terminate/destroy/truncate/drop; high for restart/reboot/stop,
**scaling when the resource name contains "down"** (the corrected
clause — the claim said "scale-down" operations), deploy/update-service,
and updates/modifies on production resources; medium for other
updates/modifies/changes and generic scaling; low otherwise. -/
def classifyRiskSpec (operation resource : String) : RiskLevel :=
  let op := jsLower operation
  let res := jsLower resource
  let criticalKw := strContainsSub op "delete" || strContainsSub op "terminate" ||
    strContainsSub op "destroy" || strContainsSub op "truncate" ||
    strContainsSub op "drop"
  let highKw := strContainsSub op "restart" || strContainsSub op "reboot" ||
    strContainsSub op "stop" ||
    (strContainsSub op "scale" && strContainsSub res "down") ||
    strContainsSub op "deploy" || strContainsSub op "update-service" ||
    ((strContainsSub res "production" || strContainsSub res "prod") &&
      (strContainsSub op "update" || strContainsSub op "modify"))
  let mediumKw := strContainsSub op "update" || strContainsSub op "modify" ||
    strContainsSub op "change" || strContainsSub op "scale"
  if criticalKw then .critical
  else if highKw then .high
  else if mediumKw then .medium
  else .low

end ApprovalClaimDefs

section ApprovalClaims

/-- C8, counterexample: a "scale-down" *operation* on a resource whose
name does not contain "down" is classified `medium`, not `high` as the
claim states — the code's scale-down test is
`op.includes('scale') && res.includes('down')`, reading "down" from the
**resource**; additionally a "change-config" operation is `medium`,
not `low`, though the claim's enumeration would leave it at low. -/
theorem C8_counterexample :
    classifyRisk "scale-down" "api-asg" = .medium ∧
    classifyRisk "scale-down" "api-asg" ≠ .high ∧
    classifyRisk "change-config" "api" = .medium := by
  refine ⟨by decide, by decide, by decide⟩

/-- C8 (amended): `classifyRisk` returns critical whenever the
operation contains delete/terminate/destroy/truncate/drop; high for
restart/reboot/stop operations, for scale operations whose *resource*
contains "down", for deploy/update-service, and for updates/modifies on
production resources; medium for other updates/modifies/changes and
generic scaling; low otherwise — i.e. it agrees everywhere with the
claim-side cascade `classifyRiskSpec`. -/
theorem C8_classifyRisk_agrees_spec (operation resource : String) :
    classifyRisk operation resource = classifyRiskSpec operation resource := by
  unfold classifyRisk classifyRiskSpec
  set op := jsLower operation
  set res := jsLower resource
  by_cases h1 : (strContainsSub op "delete" || strContainsSub op "terminate" ||
    strContainsSub op "destroy") = true <;>
  by_cases h2 : (strContainsSub op "truncate" || strContainsSub op "drop") = true <;>
  by_cases h3 : ((strContainsSub res "production" || strContainsSub res "prod") &&
    (strContainsSub op "update" || strContainsSub op "modify")) = true <;>
  by_cases h4 : (strContainsSub op "restart" || strContainsSub op "reboot" ||
    strContainsSub op "stop") = true <;>
  by_cases h5 : (strContainsSub op "scale" && strContainsSub res "down") = true <;>
  by_cases h6 : (strContainsSub op "deploy" ||
    strContainsSub op "update-service") = true <;>
  by_cases h7 : (strContainsSub op "update" || strContainsSub op "modify" ||
    strContainsSub op "change") = true <;>
  by_cases h8 : strContainsSub op "scale" = true <;>
  simp_all

/-- C8, witness: the amended theorem at the counterexample input. -/
theorem C8_classifyRisk_witness :
    classifyRisk "scale-down" "api-asg" =
      classifyRiskSpec "scale-down" "api-asg" :=
  C8_classifyRisk_agrees_spec "scale-down" "api-asg"

/-- C10: `checkCooldown` ignores its operation argument — the result is
determined solely by the single process-wide `'critical'` timestamp
written by `recordCriticalMutation` — and returns `allowed = true`,
`remainingMs = 0` when no critical mutation was recorded or the elapsed
time is at least `cooldownMs`, and `allowed = false` with
`remainingMs = cooldownMs - elapsed` otherwise. -/
theorem C10_checkCooldown_ignores_operation
    (m m' : List (String × Int)) (op1 op2 : String)
    (cooldownMs now t : Int) :
    (checkCooldown m op1 cooldownMs now = checkCooldown m op2 cooldownMs now) ∧
    (checkCooldown (recordCriticalMutation m t) op1 cooldownMs now =
      checkCooldown (recordCriticalMutation m' t) op2 cooldownMs now) ∧
    (jsGet m "critical" = Option.none →
      checkCooldown m op1 cooldownMs now = { allowed := true, remainingMs := 0 }) ∧
    (jsGet m "critical" = some t → cooldownMs ≤ now - t →
      checkCooldown m op1 cooldownMs now = { allowed := true, remainingMs := 0 }) ∧
    (jsGet m "critical" = some t → now - t < cooldownMs →
      checkCooldown m op1 cooldownMs now =
        { allowed := false, remainingMs := cooldownMs - (now - t) }) := by
  refine ⟨rfl, ?_, ?_, ?_, ?_⟩
  · unfold checkCooldown recordCriticalMutation
    rw [jsGet_jsSet_self, jsGet_jsSet_self]
  · intro h
    unfold checkCooldown
    rw [h]
  · intro h hle
    unfold checkCooldown
    rw [h]
    simp only [if_pos hle]
  · intro h hlt
    unfold checkCooldown
    rw [h]
    simp only [if_neg (not_le.mpr hlt)]

/-- C10, witness: the theorem at a concrete state — a critical mutation
recorded at time 1000, probed at time 1500 with a 60000 ms cooldown. -/
theorem C10_checkCooldown_witness :
    checkCooldown [("critical", 1000)] "restart-service" 60000 1500 =
      { allowed := false, remainingMs := 59500 } :=
  (C10_checkCooldown_ignores_operation [("critical", 1000)] []
    "restart-service" "scale-up" 60000 1500 1000).2.2.2.2
    (by decide) (by decide)

end ApprovalClaims

section Sha256Model

/-! ## SHA-256 and HMAC-SHA256

The webhook signature check calls Node's
`createHmac('sha256', secret)`. To keep the verification model fully
concrete, SHA-256 (FIPS 180-4) and HMAC (RFC 2104) are implemented
here over byte lists (`List Nat`, each < 256), with 32-bit words as
`Nat` reduced mod `2^32`. Strings are taken as their ASCII bytes, which
agrees with UTF-8 on the ASCII inputs involved. -/

/-- Truncation to a 32-bit word. -/
def w32 (n : Nat) : Nat := n % 4294967296

/-- 32-bit right rotation. -/
def rotr32 (n x : Nat) : Nat := w32 ((x >>> n) ||| (x <<< (32 - n)))

/-- Bitwise complement within 32 bits. -/
def not32 (x : Nat) : Nat := x ^^^ 4294967295

/-- SHA-256 `Ch`. -/
def sha256Ch (x y z : Nat) : Nat := (x &&& y) ^^^ (not32 x &&& z)

/-- SHA-256 `Maj`. -/
def sha256Maj (x y z : Nat) : Nat := (x &&& y) ^^^ (x &&& z) ^^^ (y &&& z)

/-- SHA-256 `Σ0`. -/
def bigSigma0 (x : Nat) : Nat := rotr32 2 x ^^^ rotr32 13 x ^^^ rotr32 22 x

/-- SHA-256 `Σ1`. -/
def bigSigma1 (x : Nat) : Nat := rotr32 6 x ^^^ rotr32 11 x ^^^ rotr32 25 x

/-- SHA-256 `σ0`. -/
def smallSigma0 (x : Nat) : Nat := rotr32 7 x ^^^ rotr32 18 x ^^^ (x >>> 3)

/-- SHA-256 `σ1`. -/
def smallSigma1 (x : Nat) : Nat := rotr32 17 x ^^^ rotr32 19 x ^^^ (x >>> 10)

/-- The 64 SHA-256 round constants. -/
def sha256K : List Nat :=
  [1116352408, 1899447441, 3049323471, 3921009573,
   961987163, 1508970993, 2453635748, 2870763221,
   3624381080, 310598401, 607225278, 1426881987,
   1925078388, 2162078206, 2614888103, 3248222580,
   3835390401, 4022224774, 264347078, 604807628,
   770255983, 1249150122, 1555081692, 1996064986,
   2554220882, 2821834349, 2952996808, 3210313671,
   3336571891, 3584528711, 113926993, 338241895,
   666307205, 773529912, 1294757372, 1396182291,
   1695183700, 1986661051, 2177026350, 2456956037,
   2730485921, 2820302411, 3259730800, 3345764771,
   3516065817, 3600352804, 4094571909, 275423344,
   430227734, 506948616, 659060556, 883997877,
   958139571, 1322822218, 1537002063, 1747873779,
   1955562222, 2024104815, 2227730452, 2361852424,
   2428436474, 2756734187, 3204031479, 3329325298]

/-- The SHA-256 initial hash value. -/
def sha256H0 : List Nat :=
  [1779033703, 3144134277, 1013904242, 2773480762,
   1359893119, 2600822924, 528734635, 1541459225]

/-- Big-endian byte decomposition of `v` into `n` bytes. -/
def bytesBE (n v : Nat) : List Nat :=
  (List.range n).map (fun i => (v >>> ((n - 1 - i) * 8)) &&& 255)

/-- SHA-256 padding: append `0x80`, zeros to 56 mod 64, and the bit
length as 8 big-endian bytes. -/
def padMessage (msg : List Nat) : List Nat :=
  let len := msg.length
  let k := (119 - (len % 64)) % 64
  msg ++ [0x80] ++ List.replicate k 0 ++ bytesBE 8 (len * 8)

/-- Group bytes into big-endian 32-bit words. -/
def toWords : List Nat → List Nat
  | b0 :: b1 :: b2 :: b3 :: rest =>
    (((b0 * 256 + b1) * 256 + b2) * 256 + b3) :: toWords rest
  | _ => []

/-- Split a byte list into 64-byte blocks of 16 words (fuelled by the
list length, which bounds the number of blocks). -/
def toBlocks : Nat → List Nat → List (List Nat)
  | 0, _ => []
  | _ + 1, [] => []
  | fuel + 1, b :: rest =>
    toWords ((b :: rest).take 64) :: toBlocks fuel ((b :: rest).drop 64)

/-- Extend a 16-word block to the 64-word message schedule. -/
def msgSchedule (block : List Nat) : List Nat :=
  (List.range 48).foldl (fun w _ =>
    let n := w.length
    w ++ [w32 (smallSigma1 (w.getD (n - 2) 0) + w.getD (n - 7) 0 +
      smallSigma0 (w.getD (n - 15) 0) + w.getD (n - 16) 0)]) block

/-- One round of the SHA-256 compression loop on the working variables
`[a, b, c, d, e, f, g, h]`. -/
def compressStep (st : List Nat) (kw : Nat × Nat) : List Nat :=
  let a := st.getD 0 0
  let b := st.getD 1 0
  let c := st.getD 2 0
  let d := st.getD 3 0
  let e := st.getD 4 0
  let f := st.getD 5 0
  let g := st.getD 6 0
  let h := st.getD 7 0
  let t1 := w32 (h + bigSigma1 e + sha256Ch e f g + kw.1 + kw.2)
  let t2 := w32 (bigSigma0 a + sha256Maj a b c)
  [w32 (t1 + t2), a, b, c, w32 (d + t1), e, f, g]

/-- Compress one block into the running hash. -/
def compressBlock (h : List Nat) (block : List Nat) : List Nat :=
  let w := msgSchedule block
  let st := (sha256K.zip w).foldl compressStep h
  (h.zip st).map (fun p => w32 (p.1 + p.2))

/-- SHA-256 of a byte list. -/
def sha256Bytes (msg : List Nat) : List Nat :=
  let padded := padMessage msg
  let hs := (toBlocks padded.length padded).foldl compressBlock sha256H0
  hs.foldr (fun wrd acc => bytesBE 4 wrd ++ acc) []

/-- A lowercase hexadecimal digit character. -/
def hexChar (n : Nat) : Char :=
  Char.ofNat (if n < 10 then 48 + n else 87 + n)

/-- Lowercase hex encoding of a byte list. -/
def bytesToHex (bs : List Nat) : String :=
  String.mk (bs.foldr (fun b acc => hexChar (b / 16) :: hexChar (b % 16) :: acc) [])

/-- The ASCII bytes of a string. -/
def strBytes (s : String) : List Nat := s.toList.map Char.toNat

/-- Lowercase-hex SHA-256 of a string. -/
def sha256Hex (s : String) : String := bytesToHex (sha256Bytes (strBytes s))

/-- HMAC-SHA256 over byte lists (block size 64). -/
def hmacSha256 (key msg : List Nat) : List Nat :=
  let key := if 64 < key.length then sha256Bytes key else key
  let key := key ++ List.replicate (64 - key.length) 0
  let ipad := key.map (fun b => b ^^^ 0x36)
  let opad := key.map (fun b => b ^^^ 0x5c)
  sha256Bytes (opad ++ sha256Bytes (ipad ++ msg))

/-- Lowercase-hex HMAC-SHA256 of ASCII strings, as
`createHmac('sha256', key).update(msg).digest('hex')`. -/
def hmacSha256Hex (key msg : String) : String :=
  bytesToHex (hmacSha256 (strBytes key) (strBytes msg))

/-- FIPS 180-4 test vector: SHA-256 of the empty string. -/
theorem sha256Hex_empty :
    sha256Hex "" =
      "e3b0c44298fc1c149afbf4c8996fb92427ae41e4649b934ca495991b7852b855" := by
  with_unfolding_all decide

/-- FIPS 180-4 test vector: SHA-256 of `"abc"`. -/
theorem sha256Hex_abc :
    sha256Hex "abc" =
      "ba7816bf8f01cfea414140de5dae2223b00361a396177a9cb410ff61f20015ad" := by
  with_unfolding_all decide

/-- RFC-style HMAC-SHA256 test vector (key `"key"`, the quick brown
fox sentence). -/
theorem hmacSha256Hex_fox :
    hmacSha256Hex "key" "The quick brown fox jumps over the lazy dog" =
      "f7bc83f430538424b13298e6aa6fb143ef4d59a14946175997479dbc2d1a3cd8" := by
  with_unfolding_all decide

end Sha256Model

section WebhookModel

/-! ## Slack webhook receiver

Embedding of the webhook part of the provider module:
`verifySlackSignature`, `handleApprovalAction` and the request handler.
The filesystem of the pending directory is an explicit association list
from paths to file contents; the Slack-side message update performed
after a decision is external network I/O outside this model, as is the
HTTP plumbing (the body parser `parseFormData` + `JSON.parse` is a
parameter of the handler model). `Date.now()/1000` is the explicit
`now : Int` (seconds). -/

/-- JavaScript `parseInt(s, 10)`: skip leading whitespace, optional
sign, then the longest digit prefix; `none` models `NaN`. -/
def parseIntJS (s : String) : Option Int :=
  let chars := s.toList.dropWhile Char.isWhitespace
  let signed : Int × List Char :=
    match chars with
    | c :: cs =>
      if c = Char.ofNat 45 then (-1, cs)
      else if c = Char.ofNat 43 then (1, cs)
      else (1, chars)
    | [] => (1, [])
  let digits := signed.2.takeWhile Char.isDigit
  if digits.isEmpty then Option.none
  else some (signed.1 *
    (digits.foldl (fun acc c => acc * 10 + (c.toNat - 48)) 0 : Nat))

/-- `verifySlackSignature`: missing header ⇒ false, and the guard
`!signature || !timestamp` also rejects an empty-string header (JS
falsiness), hence the `= ""` tests; the freshness guard
rejects only when `Math.abs(now - parseInt(ts)) > 300` — for a
non-numeric timestamp `parseInt` yields `NaN` and `NaN > 300` is false,
so the guard does *not* reject; then the presented signature must equal
`"v0=" + hex(HMAC-SHA256(secret, "v0:{ts}:{body}"))`
(`timingSafeEqual` throws on length mismatch, which the `catch` maps to
false — observationally plain string equality). -/
def verifySlackSignature (signingSecret : String)
    (signature timestamp : Option String) (body : String) (now : Int) :
    Bool :=
  match signature, timestamp with
  | some sig, some ts =>
    if sig = "" then false
    else if ts = "" then false
    else
    let fresh :=
      match parseIntJS ts with
      | some t => decide ((now - t).natAbs ≤ 300)
      | Option.none => true
    if fresh then
      let mySignature := "v0=" ++ hmacSha256Hex signingSecret
        ("v0:" ++ ts ++ ":" ++ body)
      mySignature == sig
    else false
  | _, _ => false

/-- Contents of a file in the pending directory. -/
inductive FileContent
  | pending (createdAt : String)
  | decision (approved : Bool) (approvedBy : String) (reason : String)
deriving DecidableEq, Repr

/-- The Slack user of an interaction payload. -/
structure SlackUser where
  id : String
  username : String
  name : String
deriving DecidableEq, Repr

/-- An action of a `block_actions` payload. -/
structure SlackAction where
  action_id : String
  block_id : String
  value : String
deriving DecidableEq, Repr

/-- The part of a Slack interaction payload the handler consumes. -/
structure SlackPayload where
  type : String
  user : SlackUser
  actions : List SlackAction
deriving DecidableEq, Repr

/-- `path.join(dir, name)` for the forward-slash paths in use. -/
def joinPath (dir name : String) : String := dir ++ "/" ++ name

/-- The `{ok, message}` result of `handleApprovalAction`. -/
structure HandleResult where
  ok : Bool
  message : String
deriving DecidableEq, Repr

/-- `handleApprovalAction`: for an `approve_`/`reject_` action whose
mutation is still pending, write `{mutationId}.json` with the decision
and delete `{mutationId}_pending.json`. -/
def handleApprovalAction (payload : SlackPayload) (action : SlackAction)
    (pendingDir : String) (fs : List (String × FileContent)) :
    HandleResult × List (String × FileContent) :=
  let actionId := action.action_id
  let mutationId := action.value
  let isApprove := strStartsWith actionId "approve_"
  let isReject := strStartsWith actionId "reject_"
  if !isApprove && !isReject then
    ({ ok := false, message := "Unknown action" }, fs)
  else
    let responseFile := joinPath pendingDir (mutationId ++ ".json")
    let pendingFile := joinPath pendingDir (mutationId ++ "_pending.json")
    if !(jsHas fs pendingFile) then
      ({ ok := false,
         message := "This approval request has expired or was already handled" },
       fs)
    else
      let response := FileContent.decision isApprove
        ("slack:" ++ payload.user.username)
        (if isApprove then "Approved via Slack" else "Rejected via Slack")
      let fs₁ := jsSet fs responseFile response
      let fs₂ := jsDelete fs₁ pendingFile
      ({ ok := true,
         message := if isApprove then "Mutation approved" else "Mutation rejected" },
       fs₂)

/-- An incoming HTTP request, with the two Slack headers broken out. -/
structure WebhookRequest where
  method : String
  url : String
  signature : Option String
  timestamp : Option String
  body : String
deriving DecidableEq, Repr

/-- The request handler of the webhook server, returning the HTTP
status code and the resulting pending-directory state. `parsePayload`
stands for `parseFormData` + `JSON.parse` of the body's `payload`
field; `none` models a parse exception (caught, 500). -/
def handleWebhookRequest (signingSecret pendingDir : String)
    (parsePayload : String → Option SlackPayload) (req : WebhookRequest)
    (fs : List (String × FileContent)) (now : Int) :
    Nat × List (String × FileContent) :=
  if req.url = "/health" ∧ req.method = "GET" then (200, fs)
  else if ¬ (req.url = "/slack/interactions" ∧ req.method = "POST") then
    (404, fs)
  else if ¬ (verifySlackSignature signingSecret req.signature
      req.timestamp req.body now = true) then (401, fs)
  else
    match parsePayload req.body with
    | Option.none => (500, fs)
    | some payload =>
      if payload.type = "block_actions" ∧ 0 < payload.actions.length then
        match payload.actions.head? with
        | some action =>
          if strStartsWith action.action_id "approve_" ||
              strStartsWith action.action_id "reject_" then
            (200, (handleApprovalAction payload action pendingDir fs).2)
          else (200, fs)
        | Option.none => (200, fs)
      else (200, fs)

/-- The claim-side freshness predicate of C6: the request timestamp is
(parses as a number) within 300 seconds of the current time. -/
def tsWithinClaim (ts : String) (now : Int) : Prop :=
  ∃ t, parseIntJS ts = some t ∧ (now - t).natAbs ≤ 300

end WebhookModel

section JsDeleteLemmas

theorem jsHas_jsDelete_self {α : Type} (m : List (String × α))
    (k : String) : jsHas (jsDelete m k) k = false := by
  induction m with
  | nil => rfl
  | cons p rest ih =>
    by_cases hp : p.1 = k
    · simp only [jsDelete, List.filter_cons, hp, decide_True, decide_not,
        Bool.not_true, Bool.false_eq_true, if_false]
      simpa [jsDelete] using ih
    · simp only [jsDelete, List.filter_cons, hp, decide_False, decide_not,
        Bool.not_false, if_true, jsHas, List.any_cons, Bool.false_or]
      have ih' := ih
      simp only [jsDelete, jsHas] at ih'
      simp only [decide_not] at ih'
      exact ih'

theorem jsGet_jsDelete_ne {α : Type} (m : List (String × α))
    (k k' : String) (h : ¬ k' = k) :
    jsGet (jsDelete m k) k' = jsGet m k' := by
  induction m with
  | nil => rfl
  | cons p rest ih =>
    by_cases hp : p.1 = k
    · have hp' : ¬ p.1 = k' := by rw [hp]; exact fun hc => h hc.symm
      simp only [jsDelete, List.filter_cons]
      simp only [hp, decide_True, decide_not, Bool.not_true,
        Bool.false_eq_true, if_false]
      rw [show jsGet (p :: rest) k' = jsGet rest k' from by
        simp [jsGet, List.find?, hp']]
      simpa [jsDelete] using ih
    · simp only [jsDelete, List.filter_cons]
      simp only [hp, decide_False, decide_not, Bool.not_false, if_true]
      by_cases hp' : p.1 = k'
      · simp [jsGet, List.find?, hp']
      · simp only [jsGet, List.find?, hp', decide_False,
          Bool.false_eq_true, if_false]
        simpa [jsGet, jsDelete] using ih

end JsDeleteLemmas

section WebhookClaims

/-- A signature correctly computed (with the secret) over the base
string `"v0:x:b"` whose timestamp part is the non-numeric `"x"`. -/
def exSigC6 : String := "v0=" ++ hmacSha256Hex "s" "v0:x:b"

/-- C6, counterexample: the webhook accepts a payload whose timestamp
header is the non-numeric `"x"` — `parseInt` yields `NaN`, and the
guard `Math.abs(now - NaN) > 300` is false, so the freshness check
never rejects — although `"x"` is not within 300 seconds of the
current time; the signature condition of the claim holds (the
presented signature is exactly `"v0=" + hex hmac`), so the claimed
"if and only if" fails. -/
theorem C6_counterexample :
    verifySlackSignature "s" (some exSigC6) (some "x") "b" 1000000 = true ∧
    exSigC6 = "v0=" ++ hmacSha256Hex "s" ("v0:" ++ "x" ++ ":" ++ "b") ∧
    ¬ tsWithinClaim "x" 1000000 := by
  refine ⟨by with_unfolding_all decide, rfl, ?_⟩
  rintro ⟨t, ht, _⟩
  rw [show parseIntJS "x" = Option.none from by decide] at ht
  cases ht

/-- C6 (amended): the webhook accepts a signed POST payload iff the
signature and timestamp headers are present and non-empty (a missing
or empty-string header is rejected outright by the falsy guard
`!signature || !timestamp`), the timestamp — *when it parses as a
number* — is within 300 seconds of the current time (non-numeric
timestamps pass the freshness guard, because
`Math.abs(now - NaN) > 300` is false), and the presented signature
equals `"v0="` followed by the lowercase hex HMAC-SHA256 of
`"v0:{ts}:{body}"` under the signing secret (`timingSafeEqual` over
the two buffers, observationally string equality); on signature
failure the handler responds 401; and on an accepted `approve_` action
whose `_pending.json` file still exists, it writes `{mutationId}.json`
with the decision and deletes `{mutationId}_pending.json`. -/
theorem C6_webhook_verification :
    (∀ (secret sig ts body : String) (now : Int),
      (verifySlackSignature secret (some sig) (some ts) body now = true ↔
        sig ≠ "" ∧ ts ≠ "" ∧
        (match parseIntJS ts with
         | some t => (now - t).natAbs ≤ 300
         | Option.none => True) ∧
        sig = "v0=" ++ hmacSha256Hex secret ("v0:" ++ ts ++ ":" ++ body))) ∧
    (∀ (secret body : String) (now : Int) (ts sig : Option String),
      verifySlackSignature secret Option.none ts body now = false ∧
      verifySlackSignature secret sig Option.none body now = false ∧
      verifySlackSignature secret (some "") ts body now = false ∧
      verifySlackSignature secret sig (some "") body now = false) ∧
    (∀ (secret dir : String) (parse : String → Option SlackPayload)
        (req : WebhookRequest) (fs : List (String × FileContent))
        (now : Int),
      req.method = "POST" → req.url = "/slack/interactions" →
      verifySlackSignature secret req.signature req.timestamp req.body
        now = false →
      (handleWebhookRequest secret dir parse req fs now).1 = 401) ∧
    (∀ (payload : SlackPayload) (action : SlackAction) (dir : String)
        (fs : List (String × FileContent)),
      strStartsWith action.action_id "approve_" = true →
      jsHas fs (joinPath dir (action.value ++ "_pending.json")) = true →
      ((handleApprovalAction payload action dir fs).1.ok = true ∧
       jsGet (handleApprovalAction payload action dir fs).2
         (joinPath dir (action.value ++ ".json")) =
         some (FileContent.decision true
           ("slack:" ++ payload.user.username) "Approved via Slack") ∧
       jsHas (handleApprovalAction payload action dir fs).2
         (joinPath dir (action.value ++ "_pending.json")) = false)) := by
  refine ⟨?_, ?_, ?_, ?_⟩
  · intro secret sig ts body now
    unfold verifySlackSignature
    by_cases hsig : sig = ""
    · simp [hsig]
    · by_cases hts : ts = ""
      · simp [hts]
      · simp only [if_neg hsig, if_neg hts]
        cases hp : parseIntJS ts with
        | none =>
          simp only [hp, if_true, beq_iff_eq, hsig, hts, ne_eq,
            not_false_eq_true, true_and]
          exact eq_comm
        | some t =>
          simp only [hp]
          by_cases hfresh : (now - t).natAbs ≤ 300
          · simp only [hfresh, decide_True, if_true, beq_iff_eq, hsig,
              hts, ne_eq, not_false_eq_true, true_and]
            exact eq_comm
          · simp [hfresh]
  · intro secret body now ts sig
    refine ⟨by cases ts <;> rfl, by cases sig <;> rfl, ?_, ?_⟩
    · cases ts with
      | none => rfl
      | some t => simp [verifySlackSignature]
    · cases sig with
      | none => rfl
      | some s =>
        unfold verifySlackSignature
        by_cases h : s = "" <;> simp [h]
  · intro secret dir parse req fs now hm hu hv
    unfold handleWebhookRequest
    rw [hm, hu]
    simp [hv]
  · intro payload action dir fs happrove hpending
    have h5 : (".json" : String).length = 5 := rfl
    have h13 : ("_pending.json" : String).length = 13 := rfl
    have hne : ¬ joinPath dir (action.value ++ ".json") =
        joinPath dir (action.value ++ "_pending.json") := by
      intro hc
      have hl := congrArg String.length hc
      simp only [joinPath, String.length_append, h5, h13] at hl
      omega
    unfold handleApprovalAction
    simp only [happrove, hpending, Bool.not_true, Bool.false_and,
      Bool.false_eq_true, if_false]
    refine ⟨trivial, ?_, ?_⟩
    · rw [jsGet_jsDelete_ne _ _ _ hne, jsGet_jsSet_self]
      simp
    · exact jsHas_jsDelete_self _ _

/-- The payload of the C6 witness. -/
def exActionC6 : SlackAction :=
  { action_id := "approve_mutation", block_id := "b", value := "mut_1" }

/-- The Slack payload of the C6 witness. -/
def exPayloadC6 : SlackPayload :=
  { type := "block_actions",
    user := { id := "U1", username := "casey", name := "Casey" },
    actions := [exActionC6] }

/-- The pending directory of the C6 witness: one pending mutation. -/
def exFsC6 : List (String × FileContent) :=
  [(joinPath "pending" "mut_1_pending.json", .pending "t0")]

/-- C6, witness: the amended theorem's approval clause at a concrete
pending mutation — the decision file is written and the pending file
removed. -/
theorem C6_webhook_witness :
    (handleApprovalAction exPayloadC6 exActionC6 "pending" exFsC6).1.ok =
      true ∧
    jsGet (handleApprovalAction exPayloadC6 exActionC6 "pending" exFsC6).2
      (joinPath "pending" (exActionC6.value ++ ".json")) =
      some (FileContent.decision true
        ("slack:" ++ exPayloadC6.user.username) "Approved via Slack") ∧
    jsHas (handleApprovalAction exPayloadC6 exActionC6 "pending" exFsC6).2
      (joinPath "pending" (exActionC6.value ++ "_pending.json")) = false :=
  C6_webhook_verification.2.2.2 exPayloadC6 exActionC6 "pending" exFsC6
    (by decide) (by decide)

end WebhookClaims
